import Mathlib

/-!
Verification development for the multi-agent orchestration core of the
`grok-code` repository (the `MultiAgentOrchestrator` class in
`src/utils/config.ts`).

The TypeScript code is shallowly embedded: each method becomes a Lean
function over explicit state.  The external completion service
(`EnhancedGrokApiClient.chat`) is modelled as an oracle mapping the index of
the call (the calls of one run are strictly sequential) and the outgoing
system/user messages to either a response text or an error message (a thrown
exception message).  The JavaScript builtins `JSON.parse` /
`JSON.stringify` are opaque library calls; the places where the code parses
a response are modelled by oracle functions returning `Option` (with `none`
for a parse that throws), and the places where it merely serializes a value
into prompt text are modelled by concrete rendering functions, since no
verified property depends on the rendered text.

JavaScript `Map` objects (insertion ordered) are modelled as association
lists; `Map.set` replaces in place or appends, `Map.get` returns `Option`.
Machine-level details that carry no logic (the 500 ms artificial delay,
`console.log` output, the wall-clock `timestamp` field of a memory record,
the process-wide `memoryStore` side table) are noted where they are dropped.
-/

namespace GrokCode

/-- JavaScript truthiness for `x || d` on an optional string: `undefined` and
the empty string are falsy, so both select the default. -/
def jsOrS (o : Option String) (d : String) : String :=
  match o with
  | some s => if s = "" then d else s
  | none => d

/-- Rendering of a possibly-absent string into a template literal: JavaScript
renders `undefined` as the text "undefined". -/
def tmpl (o : Option String) : String :=
  match o with
  | some s => s
  | none => "undefined"

/-- Executable contiguous-sublist test: does `pat` occur inside `s`? -/
def infixB (pat : List Char) : List Char → Bool
  | [] => pat.isPrefixOf []
  | c :: cs => pat.isPrefixOf (c :: cs) || infixB pat cs

theorem infixB_iff (pat : List Char) : ∀ s : List Char, infixB pat s = true ↔ pat <:+: s := by
  intro s
  induction s with
  | nil => simp [infixB]
  | cons c cs ih =>
    simp only [infixB, Bool.or_eq_true, List.isPrefixOf_iff_prefix, ih, List.infix_cons_iff]

/-- JavaScript `String.prototype.includes`: substring containment. -/
def strIncludes (s pat : String) : Bool :=
  infixB pat.data s.data

/-- Character-wise lower casing (`Char.toLower` maps only the basic latin
letters, which is how the embedding models `String.prototype.toLowerCase`
on the ASCII strings the orchestrator manipulates). -/
def jsToLower (s : String) : String :=
  ⟨s.data.map Char.toLower⟩

/-- Splitter modelling `String.prototype.split(/\s+/)`: the maximal runs of
non-whitespace characters, accumulating the current run in `acc` (reversed).
JavaScript additionally emits empty-string fragments at the boundaries, which
are irrelevant to every use site (they are filtered by a length guard), so
they are not produced here. -/
def wordsAux : List Char → List Char → List (List Char)
  | [], acc => if acc = [] then [] else [acc.reverse]
  | c :: cs, acc =>
    if c.isWhitespace then
      if acc = [] then wordsAux cs [] else acc.reverse :: wordsAux cs []
    else wordsAux cs (c :: acc)

/-- The whitespace-separated tokens of a character list. -/
def words (l : List Char) : List (List Char) :=
  wordsAux l []

/-- Embedding of `calculateMemoryRelevance(memoryContent, userPrompt)`
(src/utils/config.ts:326).  `memoryContent` is the serialized memory payload
(the source applies `JSON.stringify` before matching; the embedding receives
the serialized text).  Tokenizes the lower-cased prompt on whitespace, counts
the tokens longer than 3 characters occurring as substrings of the
lower-cased content, and caps the count at 10. -/
def calculateMemoryRelevance (memoryContent : String) (userPrompt : String) : Nat :=
  let promptWords := words (jsToLower userPrompt).data
  let memoryText := (jsToLower memoryContent).data
  let relevanceScore := promptWords.foldl
    (fun acc word => if word.length > 3 && infixB word memoryText then acc + 1 else acc) 0
  min relevanceScore 10

/-- Specification-side count for claim C6: the number of whitespace-separated
tokens of `userPrompt` longer than 3 characters that occur case-insensitively
as substrings of the serialized memory content.  Tokenization happens on the
original prompt; case-insensitive occurrence is lower-cased containment. -/
def relevantTokenCount (userPrompt : String) (memoryContent : String) : Nat :=
  (words userPrompt.data).countP
    (fun word => word.length > 3 && infixB (word.map Char.toLower) (jsToLower memoryContent).data)

theorem char_toNat_ofNat {n : Nat} (h : n.isValidChar) : (Char.ofNat n).toNat = n := by
  simp only [Char.ofNat, dif_pos h, Char.ofNatAux, Char.toNat, UInt32.toNat]
  simp [BitVec.toNat_ofNatLt]

theorem isWs_iff (d : Char) :
    d.isWhitespace = true ↔ (d.toNat = 32 ∨ d.toNat = 9 ∨ d.toNat = 13 ∨ d.toNat = 10) := by
  simp only [Char.isWhitespace, Bool.or_eq_true, decide_eq_true_eq]
  have he : ∀ (e : Char) (k : Nat), e.toNat = k → ((d = e) ↔ d.toNat = k) := by
    intro e k hk
    constructor
    · intro h; subst h; exact hk
    · intro h
      apply Char.eq_of_val_eq
      apply UInt32.toNat.inj
      show d.toNat = e.toNat
      rw [h, ← hk]
  rw [he ' ' 32 rfl, he '\t' 9 rfl, he '\r' 13 rfl, he '\n' 10 rfl]
  tauto

theorem toLower_isWhitespace (c : Char) : c.toLower.isWhitespace = c.isWhitespace := by
  unfold Char.toLower
  by_cases h : 65 ≤ c.toNat ∧ c.toNat ≤ 90
  · rw [if_pos h]
    have hv : (c.toNat + 32).isValidChar := by left; omega
    have h1 : (Char.ofNat (c.toNat + 32)).toNat = c.toNat + 32 := char_toNat_ofNat hv
    have hL : (Char.ofNat (c.toNat + 32)).isWhitespace = false := by
      rw [Bool.eq_false_iff]
      intro hws
      rcases (isWs_iff _).1 hws with h2 | h2 | h2 | h2 <;> omega
    have hR : c.isWhitespace = false := by
      rw [Bool.eq_false_iff]
      intro hws
      rcases (isWs_iff _).1 hws with h2 | h2 | h2 | h2 <;> omega
    rw [hL, hR]
  · rw [if_neg h]

theorem wordsAux_map_toLower (l : List Char) : ∀ acc : List Char,
    wordsAux (l.map Char.toLower) (acc.map Char.toLower)
      = (wordsAux l acc).map (List.map Char.toLower) := by
  induction l with
  | nil =>
    intro acc
    simp only [List.map_nil, wordsAux]
    by_cases h : acc = []
    · subst h; simp
    · rw [if_neg h, if_neg (by simpa using h)]
      simp
  | cons c cs ih =>
    intro acc
    simp only [List.map_cons, wordsAux, toLower_isWhitespace]
    by_cases hw : c.isWhitespace
    · rw [if_pos hw, if_pos hw]
      by_cases h : acc = []
      · subst h
        simpa using ih []
      · rw [if_neg h, if_neg (by simpa using h)]
        have := ih []
        simp only [List.map_nil] at this
        rw [this]
        simp
    · rw [if_neg hw, if_neg hw]
      have := ih (c :: acc)
      simpa using this

theorem words_map_toLower (l : List Char) :
    words (l.map Char.toLower) = (words l).map (List.map Char.toLower) := by
  have := wordsAux_map_toLower l []
  simpa [words] using this

theorem foldl_count (p : List Char → Bool) (l : List (List Char)) : ∀ n : Nat,
    l.foldl (fun acc w => if p w then acc + 1 else acc) n = n + l.countP p := by
  induction l with
  | nil => intro n; simp
  | cons w ws ih =>
    intro n
    rw [List.foldl_cons, List.countP_cons]
    by_cases h : p w = true
    · rw [if_pos h, h, ih]
      simp only [if_pos]
      omega
    · have h2 : p w = false := by simpa using h
      rw [if_neg h, h2, ih]
      simp

/-- The loop body of `calculateMemoryRelevance` counts the matching tokens of
the lower-cased prompt. -/
theorem calculateMemoryRelevance_eq_countP (memoryContent userPrompt : String) :
    calculateMemoryRelevance memoryContent userPrompt
      = min ((words (jsToLower userPrompt).data).countP
          (fun word => word.length > 3 && infixB word (jsToLower memoryContent).data)) 10 := by
  unfold calculateMemoryRelevance
  simp only [foldl_count, Nat.zero_add]

theorem jsToLower_data (s : String) : (jsToLower s).data = s.data.map Char.toLower := rfl

/-- Tokenizing the lower-cased prompt yields the lower-casings of the tokens
of the prompt, so the loop count equals the specification count. -/
theorem calculateMemoryRelevance_spec (memoryContent userPrompt : String) :
    calculateMemoryRelevance memoryContent userPrompt
      = min (relevantTokenCount userPrompt memoryContent) 10 := by
  rw [calculateMemoryRelevance_eq_countP, relevantTokenCount]
  congr 1
  simp only [jsToLower_data]
  rw [words_map_toLower, List.countP_map]
  apply List.countP_congr
  intro w _
  simp [Function.comp, List.length_map]

theorem wordsAux_append_sep (a : List Char) : ∀ acc b : List Char,
    wordsAux (a ++ ' ' :: b) acc = wordsAux a acc ++ words b := by
  induction a with
  | nil =>
    intro acc b
    simp only [List.nil_append, wordsAux]
    have hws : (' ' : Char).isWhitespace = true := by decide
    rw [if_pos hws]
    by_cases h : acc = []
    · subst h; simp [words, wordsAux]
    · rw [if_neg h, if_neg h]
      simp [words]
  | cons c cs ih =>
    intro acc b
    show wordsAux ((c :: cs) ++ ' ' :: b) acc = wordsAux (c :: cs) acc ++ words b
    rw [List.cons_append]
    by_cases hw : c.isWhitespace <;> by_cases h : acc = [] <;>
      simp [wordsAux, hw, h, ih, List.append_eq]

theorem words_append_sep (a b : List Char) :
    words (a ++ ' ' :: b) = words a ++ words b :=
  wordsAux_append_sep a [] b

/-- Appending further whitespace-separated text to the prompt never decreases
the relevance score. -/
theorem calculateMemoryRelevance_mono (memoryContent userPrompt extra : String) :
    calculateMemoryRelevance memoryContent userPrompt
      ≤ calculateMemoryRelevance memoryContent (userPrompt ++ " " ++ extra) := by
  rw [calculateMemoryRelevance_eq_countP, calculateMemoryRelevance_eq_countP]
  have hdata : (jsToLower (userPrompt ++ " " ++ extra)).data
      = (jsToLower userPrompt).data ++ ' ' :: (jsToLower extra).data := by
    simp [jsToLower_data, String.data_append, List.map_append, List.append_assoc,
      show Char.toLower ' ' = ' ' from rfl]
  rw [hdata, words_append_sep, List.countP_append]
  omega

theorem calculateMemoryRelevance_le_ten (memoryContent userPrompt : String) :
    calculateMemoryRelevance memoryContent userPrompt ≤ 10 := by
  rw [calculateMemoryRelevance_eq_countP]
  exact Nat.min_le_right _ _

end GrokCode

namespace GrokCode

/-- The mutable per-run accumulator (`AgentContext` in `types.ts`), threaded
through every executor.  `results` is a JavaScript `Map` modelled as an
insertion-ordered association list. -/
structure AgentContext where
  userPrompt : String
  results : List (String × String)
  errors : List String
  stepCount : Nat
  maxSteps : Nat
deriving DecidableEq

/-- JavaScript `Map.get`: the value stored under `k`, if any. -/
def mapGet (m : List (String × String)) (k : String) : Option String :=
  (m.find? (fun kv => kv.1 == k)).map (fun kv => kv.2)

/-- JavaScript `Map.has`. -/
def mapHas (m : List (String × String)) (k : String) : Bool :=
  (m.find? (fun kv => kv.1 == k)).isSome

/-- JavaScript `Map.set`: replace in place if the key exists, else append. -/
def mapSet (m : List (String × String)) (k v : String) : List (String × String) :=
  if m.any (fun kv => kv.1 == k) then
    m.map (fun kv => if kv.1 == k then (kv.1, v) else kv)
  else
    m ++ [(k, v)]

/-- One distilled memory record (`AgentMemory` in `types.ts`).  `content` is
the serialized structured payload; the wall-clock `timestamp` field carries no
logic and is not modelled. -/
structure AgentMemory where
  agentRole : String
  memoryType : String
  content : String
  relevanceScore : Nat
  retentionFlags : List String
deriving DecidableEq

/-- Appending a memory under an agent name in the per-run memory map
(`if (!agentMemories.has(name)) set(name, []); get(name).push(memory)`). -/
def addMemory (m : List (String × List AgentMemory)) (name : String) (mem : AgentMemory) :
    List (String × List AgentMemory) :=
  if m.any (fun kv => kv.1 == name) then
    m.map (fun kv => if kv.1 == name then (kv.1, kv.2 ++ [mem]) else kv)
  else
    m ++ [(name, [mem])]

/-- A planned step of the intelligent orchestrator, as decoded from the
workflow director JSON response (`determineWorkflowFromInterpretation`).
Absent `iterativeFeedback` / `feedbackOutput` fields are `false` / `none`. -/
structure PlannedStep where
  agent : String
  instructions : String
  required : Bool
  iterativeFeedback : Bool
  feedbackOutput : Option String
deriving DecidableEq

/-- The plan decoded from the response of the workflow director. -/
structure WorkflowPlan where
  steps : List PlannedStep
deriving DecidableEq

/-- The external dependencies of one run.  `chat` is the completion service
(`EnhancedGrokApiClient.chat`), indexed by the sequential number of the call
within the run and receiving the outgoing system and user messages; `.error`
models a thrown service exception carrying its message.  `parsePlan` and
`parseMemoryContent` model the `JSON.parse` of (the fenced block of) a
response: `none` models a parse that throws, and a successful
`parseMemoryContent` yields the serialized parsed payload (the source later
re-serializes the parsed object with `JSON.stringify`). -/
structure ServiceEnv where
  chat : Nat → String → String → Except String String
  parsePlan : String → Option WorkflowPlan
  parseMemoryContent : String → Option String

/-- The evolving state of one run: the context, the execution log, the
per-run agent memory map and the number of completion calls made so far. -/
structure RunState where
  ctx : AgentContext
  log : List String
  agentMemories : List (String × List AgentMemory)
  callIdx : Nat
deriving DecidableEq

def pushLog (s : RunState) (entry : String) : RunState :=
  { s with log := s.log ++ [entry] }

def pushError (s : RunState) (msg : String) : RunState :=
  { s with ctx := { s.ctx with errors := s.ctx.errors ++ [msg] } }

/-- One call of the completion service: consumes the next call index. -/
def chatCall (env : ServiceEnv) (s : RunState) (sys user : String) :
    Except String String × RunState :=
  (env.chat s.callIdx sys user, { s with callIdx := s.callIdx + 1 })

/-- Embedding of `getMemoryTypeForRole` (src/utils/config.ts:288): the fixed
role-to-memory-type table with default "general-experience". -/
def getMemoryTypeForRole (agentRole : String) : String :=
  if agentRole = "interpreter" then "requirements-analysis"
  else if agentRole = "analysis" then "codebase-analysis"
  else if agentRole = "retrieval" then "code-snippets"
  else if agentRole = "judge" then "quality-assessment"
  else if agentRole = "coder" then "implementation-patterns"
  else if agentRole = "quality-judge" then "testing-insights"
  else if agentRole = "supervisor" then "pipeline-optimization"
  else "general-experience"

/-- Embedding of `determineRetentionFlags` (src/utils/config.ts:340).
`memoryContent` is the serialized payload (the source stringifies before the
case-sensitive substring tests). -/
def determineRetentionFlags (agentRole : String) (memoryContent : String) : List String :=
  let flags : List String := []
  let flags := if agentRole = "interpreter" then
    flags ++ ["core-interpretation", "permanent-retention"] else flags
  let flags := if agentRole = "coder" ∨ agentRole = "analysis" then
    flags ++ ["implementation-patterns", "technical-decisions"] else flags
  let flags := if strIncludes agentRole "judge" then
    flags ++ ["quality-insights", "error-prevention"] else flags
  let flags := if strIncludes memoryContent "error" || strIncludes memoryContent "bug"
      || strIncludes memoryContent "fix" then
    flags ++ ["problem-resolution"] else flags
  flags

/-- Rendering of `JSON.stringify` applied to a response string when it is
spliced into prompt text (quoting only; escaping of interior quotes carries no
logic here and is not modelled). -/
def jsonStr (s : String) : String := "\"" ++ s ++ "\""

/-- Rendering of `JSON.stringify({ instructions, response })`, the `output`
argument the intelligent orchestrator passes to memory generation. -/
def serializeInstrResp (instructions response : String) : String :=
  "\x7b\"instructions\":" ++ jsonStr instructions ++ ",\"response\":" ++ jsonStr response ++ "\x7d"

/-- The reflective prompt built by `generateAgentMemory`
(src/utils/config.ts:251); `outputSerialized` is `JSON.stringify(output)`,
truncated by `.slice(0, 2000)`. -/
def memoryPrompt (agentRole userPrompt outputSerialized : String) (resultsSize : Nat) : String :=
  "Based on your role as \"" ++ agentRole ++ "\" in this development pipeline:\n\n" ++
  "Original User Request: \"" ++ userPrompt ++ "\"\n" ++
  "Your Work Output: \"" ++ outputSerialized.take 2000 ++ "\"\n" ++
  "Pipeline Context: " ++ toString resultsSize ++ " total results generated\n\n" ++
  "Create a memory entry that captures the most important learnings, insights, or contextual information that other agents (or future iterations of yourself) should remember. Focus on:\n\n" ++
  "1. **Key Insights** you gained about the user\x27s requirements\n" ++
  "2. **Technical Decisions** you made and why\n" ++
  "3. **Context Information** that\x27s relevant for related future tasks\n" ++
  "4. **Patterns or Lessons** that could help with similar work\n\n" ++
  "Keep it concise but comprehensive - this memory will be used to improve future pipeline executions."

/-- The system prompt of `createMemoryAnalysisAgent` (src/utils/config.ts:305)
for a target role (its `memoryType` argument is unused in the source). -/
def memoryAgentSystemPrompt (targetRole : String) : String :=
  "You are a specialized memory analysis agent for the \"" ++ targetRole ++ "\" role. Your task is to analyze completed work and extract key learnings, insights, and contextual information that should be stored as memories for future use.\n\nYou must respond with a JSON object containing:\n\x7b\n  \"keyInsights\": [\"string\"],\n  \"technicalDecisions\": [\"string\"],\n  \"contextInformation\": [\"string\"],\n  \"learnings\": [\"string\"],\n  \"relevanceAssessment\": number // 1-10 scale\n\x7d\n\nFocus on information that would be valuable for:\n- Future iterations of similar tasks\n- Other agents needing context\n- System improvement and learning\n- Pattern recognition and reuse\n\nBe specific, actionable, and focused on long-term value."

/-- Embedding of `generateAgentMemory` (src/utils/config.ts:240): build the
reflective prompt, call the completion service once, parse the structured
payload and assemble the memory record.  A failed call or parse is the
`MemoryGenerationError` case (`Except.error`), caught by every caller. -/
def generateAgentMemory (env : ServiceEnv) (agentRole outputSerialized userPrompt : String)
    (s : RunState) : Except String AgentMemory × RunState :=
  let memoryType := getMemoryTypeForRole agentRole
  let prompt := memoryPrompt agentRole userPrompt outputSerialized s.ctx.results.length
  let (r, s) := chatCall env s (memoryAgentSystemPrompt agentRole) prompt
  match r with
  | Except.error e => (Except.error e, s)
  | Except.ok response =>
    match env.parseMemoryContent response with
    | none => (Except.error "SyntaxError: JSON parse failed", s)
    | some content =>
      (Except.ok
        { agentRole := agentRole
          memoryType := memoryType
          content := content
          relevanceScore := calculateMemoryRelevance content userPrompt
          retentionFlags := determineRetentionFlags agentRole content }, s)

end GrokCode

namespace GrokCode

/-- A flattened memory as the pruner serializes it: the memory record spread
together with an `agent` field naming the agent it was grouped under
(`{ agent: agentName, ...memory }`). -/
structure TaggedMemory where
  agent : String
  memory : AgentMemory
deriving DecidableEq

/-- Embedding of the flattening in `pruneAgentMemories`
(src/utils/config.ts:376): the grouped memories in insertion order, each
tagged with its agent name. -/
def flattenTagged (m : List (String × List AgentMemory)) : List TaggedMemory :=
  m.flatMap (fun kv => kv.2.map (fun mem => { agent := kv.1, memory := mem }))

/-- The shape of a successfully `JSON.parse`d pruning response; each field is
`none` when absent (JavaScript `undefined`/`null`). -/
structure PruneAnalysis where
  relevantMemories : Option (List TaggedMemory)
  prunedMemories : Option (List TaggedMemory)
  contextSummary : Option String
  cleanupRecommendations : Option (List String)

/-- The pruning result (`MemoryAnalysisResult` in `types.ts`). -/
structure MemoryAnalysisResult where
  relevantMemories : List TaggedMemory
  prunedMemories : List TaggedMemory
  contextSummary : String
  cleanupRecommendations : List String
deriving DecidableEq

/-- Rendering of `JSON.stringify(allMemories.slice(0, 10), null, 2)` for the
pruning prompt; the rendered text feeds only prompt content. -/
def serializeTaggedMemories (l : List TaggedMemory) : String :=
  "[" ++ String.intercalate ", " (l.map (fun t =>
    "\x7b\"agent\":" ++ jsonStr t.agent ++ ",\"agentRole\":" ++ jsonStr t.memory.agentRole ++
    ",\"memoryType\":" ++ jsonStr t.memory.memoryType ++ ",\"content\":" ++
    jsonStr t.memory.content ++ "\x7d")) ++ "]"

/-- The system prompt of `createMemoryPruningAgent` (src/utils/config.ts:450). -/
def memoryPruningAgentSystemPrompt : String :=
  "You are the Memory Pruning Agent, a highly sophisticated AI specializing in intelligent memory management for agent pipelines.\n\nYour MISSION:\n- ANALYZE: Examine all agent memories against current task needs\n- PRESERVE: Always maintain the original user prompt interpretation\n- PRUNE: Remove irrelevant, outdated, or redundant memories\n- OPTIMIZE: Keep useful context while reducing cognitive load\n- RECOMMEND: Provide insights for better memory management\n\nKEY PRINCIPLES:\n1. **Original Interpretation FIRST**: The interpreter agent\x27s understanding is sacred\n2. **Task Relevance SECOND**: Memories must relate to current work\n3. **Signal vs Noise THIRD**: Useful information over accumulated clutter\n4. **Learning Opportunities**: Identify patterns for future improvement\n\nALWAYS respond with valid JSON. Focus on creating cleaner, more focused memory contexts for optimal agent performance."

/-- The user prompt built by `pruneAgentMemories` (src/utils/config.ts:384). -/
def pruningPrompt (originalUserPrompt currentPrompt : String) (allMemories : List TaggedMemory) :
    String :=
  "MEMORY PRUNING ANALYSIS:\n\n" ++
  "ORIGINAL USER PROMPT: \"" ++ originalUserPrompt ++ "\"\n" ++
  "CURRENT TASK CONTEXT: \"" ++ currentPrompt ++ "\"\n\n" ++
  "ALL RECORDED MEMORIES FROM PIPELINE EXECUTION:\n" ++
  serializeTaggedMemories (allMemories.take 10) ++ " // Limit to prevent token overflow\n\n" ++
  "INSTRUCTIONS:\n1. EVALUATE all memories against the CURRENT TASK CONTEXT\n2. RETAIN the original interpretation (highest priority)\n3. KEEP memories directly relevant to current work\n4. PRUNE outdated, irrelevant, or redundant information\n5. FOCUS on maintaining core understanding while reducing noise\n\n" ++
  "PROVIDE ANALYSIS IN THIS JSON FORMAT:\n\x7b\n  \"coreInterpretationMemory\": \x7b /* the original interpreter memory */ \x7d,\n  \"relevantMemories\": [ /* list of memories to keep */ ],\n  \"prunedMemories\": [ /* list of memories to discard */ ],\n  \"contextSummary\": \"Summary of what\x27s retained vs removed\",\n  \"cleanupRecommendations\": [\"suggestions for future memory management\"]\n\x7d\n\n" ++
  "BE CAREFUL: Preserve the original prompt interpretation but intelligently prune based on relevance to current task."

/-- Embedding of `pruneAgentMemories` (src/utils/config.ts:368).  The single
completion call is made through `chat` at call index `callIdx`;
`parseAnalysis` models the `JSON.parse` of (the fenced block of) the
response, `none` standing for any throw inside the `try` block.  A thrown
service error (outside the `try`) propagates as `Except.error`; a parse
failure selects the fixed fallback result. -/
def pruneAgentMemories (chat : Nat → String → String → Except String String)
    (parseAnalysis : String → Option PruneAnalysis) (callIdx : Nat)
    (originalUserPrompt : String) (agentMemories : List (String × List AgentMemory))
    (currentPrompt : String) : Except String MemoryAnalysisResult :=
  let allMemories := flattenTagged agentMemories
  let prompt := pruningPrompt originalUserPrompt currentPrompt allMemories
  match chat callIdx memoryPruningAgentSystemPrompt prompt with
  | Except.error e => Except.error e
  | Except.ok response =>
    match parseAnalysis response with
    | some analysis =>
      Except.ok
        { relevantMemories := analysis.relevantMemories.getD []
          prunedMemories := analysis.prunedMemories.getD []
          contextSummary := jsOrS analysis.contextSummary "Memory analysis completed"
          cleanupRecommendations := analysis.cleanupRecommendations.getD [] }
    | none =>
      Except.ok
        { relevantMemories := allMemories.take 5
          prunedMemories := allMemories.drop 5
          contextSummary := "Automatic pruning performed due to parsing error"
          cleanupRecommendations := ["Implement better JSON parsing for memory analysis"] }

end GrokCode

namespace GrokCode

/-- An agent profile as produced by `createAgentWithRole`
(src/utils/config.ts:996).  The `fileTools` permission block configures
filesystem capabilities outside the orchestration logic and is not
modelled. -/
structure Agent where
  name : String
  description : String
  systemPrompt : String
  capabilities : List String

/-- Embedding of `createAgentWithRole(name, role, systemPrompt)`. -/
def createAgentWithRole (name role systemPrompt : String) : Agent :=
  { name := name ++ "-agent"
    description := role ++ " agent for multi-agent pipelines"
    systemPrompt := systemPrompt
    capabilities := [role, "multi-agent", "specialized"] }

/-- One static pipeline step (`AgentStep` in `types.ts`): an agent, a role
label, an input builder reading the accumulated context, and an optional
output key. -/
structure AgentStep where
  agent : Agent
  role : String
  inputMap : AgentContext → String
  outputKey : Option String

/-- A registered pipeline (`AgentPipeline` in `types.ts`). -/
structure AgentPipeline where
  id : String
  name : String
  description : String
  enabled : Bool
  steps : List AgentStep

/-- Rendering of a boolean into a template literal. -/
def boolStr (b : Bool) : String := if b then "true" else "false"

/-- Embedding of `createCodeDevelopmentSteps` (src/utils/config.ts:908): the
seven-step static development pipeline with its literal input templates. -/
def createCodeDevelopmentSteps : List AgentStep :=
  [ { agent := createAgentWithRole "interpreter" "interpret" "Expert at understanding user requirements..."
      role := "interpreter"
      inputMap := fun ctx =>
        "Analyze this user request and provide a clear interpretation: \"" ++ ctx.userPrompt ++ "\""
      outputKey := some "interpretation" }
  , { agent := createAgentWithRole "analysis" "analyze" "Code analysis expert..."
      role := "analysis"
      inputMap := fun ctx =>
        "Using this interpretation \"" ++ tmpl (mapGet ctx.results "interpretation") ++
        "\", analyze the codebase and identify relevant files and components. Focus on what needs to be modified or created."
      outputKey := some "analysis" }
  , { agent := createAgentWithRole "retrieval" "retrieve" "Precision code retriever..."
      role := "retrieval"
      inputMap := fun ctx =>
        "Based on this analysis \"" ++ tmpl (mapGet ctx.results "analysis") ++
        "\", extract the exact relevant code segments from the identified files. Preserve all type signatures, imports, and comments verbatim."
      outputKey := some "code_segments" }
  , { agent := createAgentWithRole "judge" "judge" "Code appropriateness judge..."
      role := "judge"
      inputMap := fun ctx =>
        "Evaluate if these code segments \"" ++ tmpl (mapGet ctx.results "code_segments") ++
        "\" are appropriate for the task \"" ++ ctx.userPrompt ++
        "\". Provide specific feedback on relevance and completeness."
      outputKey := some "judgment" }
  , { agent := createAgentWithRole "coder" "code" "Production code generation expert..."
      role := "coder"
      inputMap := fun ctx =>
        "Generate production code for \"" ++ ctx.userPrompt ++ "\" using this context:\n" ++
        "        - Interpretation: " ++ tmpl (mapGet ctx.results "interpretation") ++ "\n" ++
        "        - Analysis: " ++ tmpl (mapGet ctx.results "analysis") ++ "\n" ++
        "        - Code segments: " ++ tmpl (mapGet ctx.results "code_segments") ++ "\n" ++
        "        - Judge feedback: " ++ tmpl (mapGet ctx.results "judgment") ++ "\n\n" ++
        "        Write complete, functional code following best practices."
      outputKey := some "generated_code" }
  , { agent := createAgentWithRole "quality-judge" "quality-check" "Quality assurance expert..."
      role := "quality-check"
      inputMap := fun ctx =>
        "Review this generated code \"" ++ tmpl (mapGet ctx.results "generated_code") ++
        "\" for the task \"" ++ ctx.userPrompt ++
        "\". Check syntax, logic, integration, and provide detailed feedback on any issues."
      outputKey := some "quality_assessment" }
  , { agent := createAgentWithRole "supervisor" "supervise" "Pipeline supervisor..."
      role := "supervisor"
      inputMap := fun ctx =>
        "\nPipeline Summary:\n" ++
        "        - Steps completed: " ++ toString ctx.stepCount ++ "/" ++ toString ctx.maxSteps ++ "\n" ++
        "        - Errors encountered: " ++
        (if ctx.errors.length > 0 then String.intercalate ", " ctx.errors else "None") ++ "\n" ++
        "        - Final result ready: " ++ boolStr (mapHas ctx.results "generated_code") ++ "\n\n" ++
        "        Provide overall pipeline success assessment and final deliverable."
      outputKey := some "final_summary" } ]

/-- Embedding of `createAnalysisSteps` (src/utils/config.ts:978). -/
def createAnalysisSteps : List AgentStep :=
  [ { agent := createAgentWithRole "analyzer" "analyze"
        ("You are a specialized code analysis agent. Your role is to:\n" ++
         "    - Perform comprehensive code analysis without generating new code\n" ++
         "    - Identify patterns, issues, and optimization opportunities\n" ++
         "    - Provide detailed technical recommendations\n" ++
         "    - Suggest architectural improvements and best practices\n" ++
         "    - Focus on analysis, not implementation")
      role := "analyzer"
      inputMap := fun ctx =>
        "Perform comprehensive analysis on: \"" ++ ctx.userPrompt ++
        "\". Provide detailed technical insights, recommendations, and best practices."
      outputKey := some "analysis" } ]

/-- The pipeline registry built by `initializePipelines`
(src/utils/config.ts:598): both pipelines registered, both enabled. -/
def pipelineRegistry : List (String × AgentPipeline) :=
  [ ("code-development",
     { id := "code-development"
       name := "Code Development Pipeline"
       description := "Full software development pipeline with specialized agents"
       enabled := true
       steps := createCodeDevelopmentSteps })
  , ("analysis-only",
     { id := "analysis-only"
       name := "Analysis Pipeline"
       description := "Analysis and recommendation pipeline without code generation"
       enabled := true
       steps := createAnalysisSteps }) ]

/-- Lookup of a registered pipeline: `this.pipelines.get(pipelineId)`. -/
def findPipeline (pipelineId : String) : Option AgentPipeline :=
  (pipelineRegistry.find? (fun kv => kv.1 == pipelineId)).map (fun kv => kv.2)

/-- The result of one run (`PipelineResult` in `types.ts`).  The equality
used by theorems ignores only function-valued content, of which there is
none in a result. -/
structure PipelineResult where
  success : Bool
  finalResult : String
  context : AgentContext
  executionLog : List String
  agentMemories : Option (List (String × List AgentMemory))

def setStepCount (s : RunState) (i : Nat) : RunState :=
  { s with ctx := { s.ctx with stepCount := i } }

def setResult (s : RunState) (k v : String) : RunState :=
  { s with ctx := { s.ctx with results := mapSet s.ctx.results k v } }

/-- The loop of `executePipeline` (src/utils/config.ts:1030), processing the
steps from index `i`.  On a service error the failure is recorded and
the loop continues — except that a failing step whose role is "supervisor"
breaks out of the loop.  The 500 ms pacing delay carries no logic and is
dropped. -/
def runPipelineSteps (env : ServiceEnv) (total : Nat) :
    List AgentStep → Nat → RunState → RunState
  | [], _, s => s
  | step :: rest, i, s =>
    let s := setStepCount s (i + 1)
    let s := pushLog s ("Executing step " ++ toString (i + 1) ++ "/" ++ toString total ++ ": " ++ step.role)
    let prompt := step.inputMap s.ctx
    let (r, s) := chatCall env s step.agent.systemPrompt prompt
    match r with
    | Except.ok response =>
      let s := match step.outputKey with
        | some k => setResult s k response
        | none => s
      let s := pushLog s ("Step " ++ step.role ++ " completed successfully")
      runPipelineSteps env total rest (i + 1) s
    | Except.error msg =>
      let errorMsg := "Step " ++ step.role ++ " failed: " ++ msg
      let s := pushLog (pushError s errorMsg) ("ERROR: " ++ errorMsg)
      if step.role == "supervisor" then s
      else runPipelineSteps env total rest (i + 1) s

/-- The non-fatal memory attempt of `executePipelineWithMemory`
(src/utils/config.ts:512): generate a memory from the raw response, store it
and log success, or log the failure. -/
def memStepMemory (env : ServiceEnv) (role response userPrompt : String) (s : RunState) :
    RunState :=
  let g := generateAgentMemory env role (jsonStr response) userPrompt s
  match g.1 with
  | Except.ok mem =>
    pushLog { g.2 with agentMemories := addMemory g.2.agentMemories (role ++ "-agent") mem }
      ("Memory generated for " ++ role)
  | Except.error e =>
    pushLog g.2 ("Memory generation failed for " ++ role ++ ": " ++ e)

/-- The loop of `executePipelineWithMemory` (src/utils/config.ts:487): like
`runPipelineSteps` it records the error of a failing step and continues, but its
catch block contains no "supervisor" break; after a successful step with an
`outputKey` it additionally attempts (non-fatally) to generate a memory. -/
def runMemorySteps (env : ServiceEnv) (total : Nat) (userPrompt : String) :
    List AgentStep → Nat → RunState → RunState
  | [], _, s => s
  | step :: rest, i, s =>
    let s := setStepCount s (i + 1)
    let s := pushLog s ("Executing step " ++ toString (i + 1) ++ "/" ++ toString total ++ ": " ++ step.role)
    let prompt := step.inputMap s.ctx
    let (r, s) := chatCall env s step.agent.systemPrompt prompt
    match r with
    | Except.ok response =>
      let s := match step.outputKey with
        | some k => memStepMemory env step.role response userPrompt (setResult s k response)
        | none => s
      let s := pushLog s ("Step " ++ step.role ++ " completed successfully")
      runMemorySteps env total userPrompt rest (i + 1) s
    | Except.error msg =>
      let errorMsg := "Step " ++ step.role ++ " failed: " ++ msg
      let s := pushLog (pushError s errorMsg) ("ERROR: " ++ errorMsg)
      runMemorySteps env total userPrompt rest (i + 1) s

/-- Fresh run state: context initialized as in both executors
(`stepCount = 0`, `maxSteps` given), empty log and memory map, call index 0. -/
def initRunState (userPrompt : String) (maxSteps : Nat) : RunState :=
  { ctx := { userPrompt := userPrompt, results := [], errors := [], stepCount := 0, maxSteps := maxSteps }
    log := []
    agentMemories := []
    callIdx := 0 }

/-- The completion clause shared by both pipeline executors: success iff no
recorded errors, and the two-key fallback chain for the final result
(JavaScript `||`, under which an empty stored string is falsy). -/
def pipelineCompletion (s : RunState) (agentMemories : Option (List (String × List AgentMemory))) :
    PipelineResult :=
  { success := s.ctx.errors.isEmpty
    finalResult := jsOrS (mapGet s.ctx.results "final_summary")
      (jsOrS (mapGet s.ctx.results "generated_code") "Pipeline completed")
    context := s.ctx
    executionLog := s.log
    agentMemories := agentMemories }

/-- Embedding of `executePipeline(pipelineId, userPrompt)`
(src/utils/config.ts:1014).  An unknown or disabled pipeline id throws
(`Except.error`) before any context is created or any step runs. -/
def executePipeline (env : ServiceEnv) (pipelineId userPrompt : String) :
    Except String PipelineResult :=
  match findPipeline pipelineId with
  | none => Except.error ("Pipeline " ++ pipelineId ++ " not found or disabled")
  | some pipeline =>
    if pipeline.enabled then
      let s := runPipelineSteps env pipeline.steps.length pipeline.steps 0
        (initRunState userPrompt pipeline.steps.length)
      Except.ok (pipelineCompletion s none)
    else Except.error ("Pipeline " ++ pipelineId ++ " not found or disabled")

/-- Embedding of `executePipelineWithMemory(pipelineId, userPrompt)`
(src/utils/config.ts:470).  The copy of the final memory map into the
process-wide `memoryStore` (keyed by pipeline id and wall-clock time) is a
side table not consumed by any verified property and is not modelled. -/
def executePipelineWithMemory (env : ServiceEnv) (pipelineId userPrompt : String) :
    Except String PipelineResult :=
  match findPipeline pipelineId with
  | none => Except.error ("Pipeline " ++ pipelineId ++ " not found or disabled")
  | some pipeline =>
    if pipeline.enabled then
      let s := runMemorySteps env pipeline.steps.length userPrompt pipeline.steps 0
        (initRunState userPrompt pipeline.steps.length)
      Except.ok (pipelineCompletion s (some s.agentMemories))
    else Except.error ("Pipeline " ++ pipelineId ++ " not found or disabled")

end GrokCode

namespace GrokCode

/-- Embedding of `getSystemPromptForAgent` (src/utils/config.ts:840): the
fixed role-to-system-prompt table with a generic default for unknown roles. -/
def getSystemPromptForAgent (agentRole : String) : String :=
  if agentRole = "interpreter" then
    "You are an expert requirements interpreter. Your role is to:\n- Break down user requests into clear, actionable tasks\n- Identify technical components, languages, frameworks needed\n- Determine what specific outcomes are required\n- Provide strategic guidance for subsequent agents\n\nFocus on understanding INTENT and providing clear interpretations that guide technical execution."
  else if agentRole = "analysis" then
    "You are a code analysis expert. Your role is to:\n- Examine project structure and identify relevant files\n- Analyze existing code patterns and architectures\n- Determine what code needs to be modified or created\n- Provide detailed technical assessments\n- Use file reading/analysis tools to understand context\n\nProvide comprehensive analysis that other agents can use to make informed decisions."
  else if agentRole = "retrieval" then
    "You are a precision code retriever. Your role is to:\n- Extract verbatim code segments from specified files\n- Preserve exact imports, signatures, comments, and formatting\n- Handle cross-file dependencies accurately\n- Provide complete, accurate code snippets\n- Focus on precision and completeness\n\nEvery character must be preserved exactly as it appears in the source code."
  else if agentRole = "coder" then
    "You are a production code generation expert. Your role is to:\n- Write high-quality, production-ready code\n- Implement exact requirements and specifications\n- Follow best practices, patterns, and conventions\n- Include proper error handling and documentation\n- Generate immediately buildable and runnable code\n\nFocus on quality, correctness, and production-readiness."
  else if agentRole = "judge" then
    "You are a quality assurance expert. Your role is to:\n- Validate code quality and correctness\n- Identify syntax, logic, and integration issues\n- Assess completeness and appropriateness\n- Provide specific, actionable feedback\n- Ensure production readiness\n\nBe thorough, critical, and specific in your evaluations."
  else if agentRole = "quality-judge" then
    "You are a quality assurance expert. Your role is to:\n- Validate code quality and correctness\n- Identify syntax, logic, and integration issues\n- Assess completeness and appropriateness\n- Provide specific, actionable feedback\n- Ensure production readiness\n\nBe thorough, critical, and specific in your evaluations."
  else if agentRole = "supervisor" then
    "You are the pipeline supervisor. Your role is to:\n- Monitor overall pipeline execution\n- Ensure successful completion of objectives\n- Handle coordination and quality control\n- Provide final assessments and deliverables\n- Maintain pipeline integrity\n\nFocus on successful task completion and quality outcomes."
  else
    "You are a specialized " ++ agentRole ++ " agent."

/-- The success-path storage of `executeSingleAgent`
(src/utils/config.ts:807): the response is stored under the key built as the
role followed by the literal suffix `_result`, and the step counter is
incremented. -/
def esaStore (s : RunState) (agentRole response : String) : RunState :=
  { s with ctx := { s.ctx with
      results := mapSet s.ctx.results (agentRole ++ "_result") response
      stepCount := s.ctx.stepCount + 1 } }

/-- The non-fatal memory attempt of `executeSingleAgent`
(src/utils/config.ts:811): generate a memory from the instruction/response
pair; store it on success, log the failure otherwise. -/
def esaMemory (env : ServiceEnv) (agentRole instructions userPrompt response : String)
    (s : RunState) : RunState :=
  let g := generateAgentMemory env agentRole (serializeInstrResp instructions response)
    userPrompt s
  match g.1 with
  | Except.ok mem =>
    { g.2 with agentMemories := addMemory g.2.agentMemories (agentRole ++ "-agent") mem }
  | Except.error e =>
    pushLog g.2 ("Memory generation failed for " ++ agentRole ++ ": " ++ e)

/-- Embedding of `executeSingleAgent` (src/utils/config.ts:783): one generic
agent invocation of the intelligent orchestrator.  On success it stores the
response (via `esaStore`) and attempts memory generation non-fatally
(via `esaMemory`); on a service error it records the failure and reports
`false`. -/
def executeSingleAgent (env : ServiceEnv) (agentRole instructions userPrompt : String)
    (s : RunState) : Bool × RunState :=
  let s := pushLog s ("Executing " ++ agentRole ++ " agent...")
  let agent := createAgentWithRole agentRole agentRole (getSystemPromptForAgent agentRole)
  let (r, s) := chatCall env s agent.systemPrompt instructions
  match r with
  | Except.error msg =>
    let errorMsg := agentRole ++ " failed: " ++ msg
    (false, pushLog (pushError s errorMsg) ("❌ " ++ errorMsg))
  | Except.ok response =>
    let s := esaStore s agentRole response
    let s := esaMemory env agentRole instructions userPrompt response s
    (true, pushLog s (agentRole ++ " completed successfully"))

/-- The interpreter instructions of `executeIntelligentOrchestration`
(src/utils/config.ts:640). -/
def interpreterInstructions (userPrompt : String) : String :=
  "Analyze this user request and determine what needs to be done: \"" ++ userPrompt ++ "\"\n\n" ++
  "Based on the request, decide which AGENT should run NEXT and provide specific instructions for that agent.\n\n" ++
  "Available agents:\n- ANALYSIS: Codebase examination and structure analysis\n- RETRIEVAL: Specific code extraction and verbatim copying\n- CODER: Code generation and implementation\n- JUDGE: Quality assessment and validation\n\n" ++
  "Choose the most appropriate next agent and provide detailed instructions for what it should accomplish."

/-- The workflow-director system prompt of
`determineWorkflowFromInterpretation` (src/utils/config.ts:736). -/
def workflowDirectorSystemPrompt : String :=
  "You are a workflow director who determines the optimal sequence of agents to execute based on user requirements.\n\nAvailable agents and their capabilities:\n- ANALYSIS: Examines codebase structure, finds relevant files, analyzes dependencies\n- RETRIEVAL: Extracts verbatim code segments from specific files\n- CODER: Generates new code or modifies existing code\n- JUDGE: Validates code quality, appropriateness, and completeness\n\nYour task: Analyze the interpretation and create an optimal workflow of agents. Return JSON:\n\x7b\n  \"steps\": [\n    \x7b\n      \"agent\": \"analysis|retrieval|coder|judge\",\n      \"instructions\": \"Detailed instructions for this agent\",\n      \"required\": true|false,\n      \"iterativeFeedback\": true|false (if this step can iterate),\n      \"feedbackOutput\": \"output_key_to_check\" (for iteration)\n    \x7d\n  ]\n\x7d"

/-- The user message sent to the workflow director
(src/utils/config.ts:759). -/
def plannerUserMessage (originalPrompt interpretation : String) : String :=
  "User Request: \"" ++ originalPrompt ++ "\"\nInterpretation: \"" ++ interpretation ++
  "\"\n\nDetermine the optimal workflow sequence of agents."

/-- The fixed fallback workflow substituted when the director response
fails to parse (src/utils/config.ts:772). -/
def fallbackWorkflow (interpretation : String) : WorkflowPlan :=
  { steps :=
    [ { agent := "analysis", instructions := "Analyze codebase for: " ++ interpretation
        required := true, iterativeFeedback := false, feedbackOutput := none }
    , { agent := "coder", instructions := "Generate code based on analysis: " ++ interpretation
        required := true, iterativeFeedback := false, feedbackOutput := none }
    , { agent := "judge", instructions := "Review the generated code for quality and correctness"
        required := false, iterativeFeedback := false, feedbackOutput := none } ] }

/-- Rendering of `JSON.stringify(workflowPlan, null, 2)`; feeds one log line
only. -/
def showPlan (plan : WorkflowPlan) : String :=
  "\x7b\"steps\":[" ++ String.intercalate ", " (plan.steps.map (fun st =>
    "\x7b\"agent\":" ++ jsonStr st.agent ++ ",\"instructions\":" ++ jsonStr st.instructions ++
    ",\"required\":" ++ boolStr st.required ++ "\x7d")) ++ "]\x7d"

/-- Embedding of `determineWorkflowFromInterpretation`
(src/utils/config.ts:735): one planning call.  The `JSON.parse` of the
response sits inside a `try` whose catch substitutes the fallback workflow;
the service call itself is outside the `try`, so a thrown service error
propagates out of the whole orchestration. -/
def determineWorkflowFromInterpretation (env : ServiceEnv)
    (interpretation originalPrompt : String) (s : RunState) :
    Except String (WorkflowPlan × RunState) :=
  let agent := createAgentWithRole "workflow-director" "orchestrate" workflowDirectorSystemPrompt
  let (r, s) := chatCall env s agent.systemPrompt (plannerUserMessage originalPrompt interpretation)
  match r with
  | Except.error e => Except.error e
  | Except.ok response =>
    match env.parsePlan response with
    | some plan => Except.ok (plan, s)
    | none => Except.ok (fallbackWorkflow interpretation, s)

/-- The trigger condition of the iterative-feedback retry
(src/utils/config.ts:692). -/
def qualityTriggered (qualityCheck : String) : Bool :=
  strIncludes (jsToLower qualityCheck) "error" ||
  strIncludes (jsToLower qualityCheck) "issues" ||
  strIncludes (jsToLower qualityCheck) "fix needed"

/-- The augmented instructions of the one-shot retry
(src/utils/config.ts:700). -/
def retryInstructions (instructions qualityCheck : String) : String :=
  instructions ++ "\n\nPREVIOUS FEEDBACK FROM QUALITY CHECK:\n" ++ qualityCheck ++
  "\n\nPlease address these issues and improve the solution."

/-- Whether the `feedbackOutput` key of the step is present in the results
(`context.results.has(step.feedbackOutput)`; an absent field is `undefined`,
which no key equals). -/
def hasFeedback (s : RunState) (step : PlannedStep) : Bool :=
  match step.feedbackOutput with
  | some k => mapHas s.ctx.results k
  | none => false

/-- The stored feedback output: the value under `feedbackOutput`, defaulted
to the empty string by JavaScript truthiness. -/
def getFeedback (s : RunState) (step : PlannedStep) : String :=
  match step.feedbackOutput with
  | some k => jsOrS (mapGet s.ctx.results k) ""
  | none => ""

/-- The execution-phase loop of `executeIntelligentOrchestration`
(src/utils/config.ts:673): each planned step runs once; a failed required
step stops the remaining plan; afterwards, a step declaring
`iterativeFeedback` whose stored feedback output signals quality issues is
re-invoked exactly once with the feedback appended (the result of the retry
is not examined again). -/
def runPlannedSteps (env : ServiceEnv) (userPrompt : String) :
    List PlannedStep → RunState → RunState
  | [], s => s
  | step :: rest, s =>
    let r := executeSingleAgent env step.agent step.instructions userPrompt s
    if !r.1 && step.required then
      pushLog r.2 ("❌ Required step \x27" ++ step.agent ++ "\x27 failed - stopping workflow")
    else
      let s2 :=
        if step.iterativeFeedback && hasFeedback r.2 step then
          let qualityCheck := getFeedback r.2 step
          if qualityTriggered qualityCheck then
            let s3 := pushLog r.2 ("🔄 Quality issues detected - sending feedback to " ++
              step.agent ++ " for iteration")
            (executeSingleAgent env step.agent (retryInstructions step.instructions qualityCheck)
              userPrompt s3).2
          else r.2
        else r.2
      runPlannedSteps env userPrompt rest s2

/-- Orchestration phase 1 (src/utils/config.ts:638): the interpreter step on
a fresh context with `maxSteps = 10`. -/
def orchPhase1 (env : ServiceEnv) (userPrompt : String) : Bool × RunState :=
  executeSingleAgent env "interpreter" (interpreterInstructions userPrompt) userPrompt
    (initRunState userPrompt 10)

/-- The `interpretation` read in phase 2 (src/utils/config.ts:667): the
value under the key `interpretation`, defaulted to the empty string by
JavaScript truthiness.  Note the key mismatch with the `interpreter_result`
key that `executeSingleAgent` writes. -/
def orchInterpretation (env : ServiceEnv) (userPrompt : String) : String :=
  jsOrS (mapGet (orchPhase1 env userPrompt).2.ctx.results "interpretation") ""

/-- Orchestration phase 2 (src/utils/config.ts:668). -/
def orchPlanning (env : ServiceEnv) (userPrompt : String) :
    Except String (WorkflowPlan × RunState) :=
  determineWorkflowFromInterpretation env (orchInterpretation env userPrompt) userPrompt
    (orchPhase1 env userPrompt).2

/-- Orchestration phases 2 and 3: the plan log line followed by the
execution loop. -/
def orchExecPhase (env : ServiceEnv) (userPrompt : String) : Except String RunState :=
  match orchPlanning env userPrompt with
  | Except.error e => Except.error e
  | Except.ok (plan, s2) =>
    Except.ok (runPlannedSteps env userPrompt plan.steps
      (pushLog s2 ("🎯 Workflow determined: " ++ showPlan plan)))

/-- The supervisor instructions of the final aggregation
(src/utils/config.ts:713), built from the log and the accumulated results. -/
def supervisorInstructions (userPrompt interpretation : String) (s : RunState) : String :=
  "\nPipeline Completion Summary:\n" ++
  "      - Original Request: \"" ++ userPrompt ++ "\"\n" ++
  "      - Interpretation: " ++ interpretation ++ "\n" ++
  "      - Steps Executed: " ++
  toString ((s.log.filter (fun l => strIncludes l "completed")).length) ++ "\n" ++
  "      - Results Generated: " ++
  String.intercalate "\n        "
    (s.ctx.results.map (fun kv => kv.1 ++ ": " ++ kv.2.take 100 ++ "...")) ++ "\n\n" ++
  "      Provide the final deliverable and completion assessment."

/-- Embedding of `executeIntelligentOrchestration(userPrompt)`
(src/utils/config.ts:623).  A failed interpretation returns immediately; a
thrown planner service error propagates (`Except.error`); otherwise the
supervisor runs last and its own success flag becomes the overall success. -/
def executeIntelligentOrchestration (env : ServiceEnv) (userPrompt : String) :
    Except String PipelineResult :=
  let p1 := orchPhase1 env userPrompt
  if p1.1 then
    match orchExecPhase env userPrompt with
    | Except.error e => Except.error e
    | Except.ok s3 =>
      let sup := executeSingleAgent env "supervisor"
        (supervisorInstructions userPrompt (orchInterpretation env userPrompt) s3) userPrompt s3
      Except.ok
        { success := sup.1
          finalResult := jsOrS (mapGet sup.2.ctx.results "final_summary")
            (jsOrS (mapGet sup.2.ctx.results "generated_code") "Workflow completed")
          context := sup.2.ctx
          executionLog := sup.2.log
          agentMemories := some sup.2.agentMemories }
  else
    Except.ok
      { success := false
        finalResult := "Interpretation failed - cannot determine next steps"
        context := p1.2.ctx
        executionLog := p1.2.log ++ ["❌ Pipeline failed at interpretation stage"]
        agentMemories := none }

end GrokCode


namespace GrokCode

theorem exceptOk_of_isOk {α β : Type} {e : Except α β} (h : e.isOk = true) :
    ∃ r, e = Except.ok r := by
  cases e with
  | error a => simp [Except.isOk, Except.toBool] at h
  | ok r => exact ⟨r, rfl⟩

theorem mapSet_mem {m : List (String × String)} {k v : String} {kv : String × String}
    (h : kv ∈ mapSet m k v) : kv.1 = k ∨ kv ∈ m := by
  unfold mapSet at h
  split at h
  · obtain ⟨old, hold, heq⟩ := List.mem_map.1 h
    split at heq
    · left
      rw [← heq]
      next hb => exact eq_of_beq hb
    · right
      rw [← heq]
      exact hold
  · rcases List.mem_append.1 h with h2 | h2
    · right; exact h2
    · left
      rw [List.mem_singleton.1 h2]

/-- Memory generation only consumes a completion call and possibly builds
a record: the run context is untouched. -/
theorem generateAgentMemory_ctx (env : ServiceEnv) (agentRole outputSerialized userPrompt : String)
    (s : RunState) :
    ((generateAgentMemory env agentRole outputSerialized userPrompt s).2).ctx = s.ctx := by
  rcases hc : env.chat s.callIdx (memoryAgentSystemPrompt agentRole)
      (memoryPrompt agentRole userPrompt outputSerialized s.ctx.results.length) with e | response
  · simp [generateAgentMemory, chatCall, hc]
  · rcases hp : env.parseMemoryContent response with _ | content <;>
      simp [generateAgentMemory, chatCall, hc, hp]

/-- Likewise the execution log is untouched (its callers do the logging). -/
theorem generateAgentMemory_log (env : ServiceEnv) (agentRole outputSerialized userPrompt : String)
    (s : RunState) :
    ((generateAgentMemory env agentRole outputSerialized userPrompt s).2).log = s.log := by
  rcases hc : env.chat s.callIdx (memoryAgentSystemPrompt agentRole)
      (memoryPrompt agentRole userPrompt outputSerialized s.ctx.results.length) with e | response
  · simp [generateAgentMemory, chatCall, hc]
  · rcases hp : env.parseMemoryContent response with _ | content <;>
      simp [generateAgentMemory, chatCall, hc, hp]

theorem esaMemory_ctx (env : ServiceEnv) (agentRole instructions userPrompt response : String)
    (s : RunState) :
    (esaMemory env agentRole instructions userPrompt response s).ctx = s.ctx := by
  unfold esaMemory
  rcases hg : (generateAgentMemory env agentRole (serializeInstrResp instructions response)
      userPrompt s).1 with e | mem <;>
    simp [hg, pushLog, generateAgentMemory_ctx]

theorem esaMemory_log (env : ServiceEnv) (agentRole instructions userPrompt response : String)
    (s : RunState) :
    ∃ t, (esaMemory env agentRole instructions userPrompt response s).log = s.log ++ t := by
  unfold esaMemory
  rcases hg : (generateAgentMemory env agentRole (serializeInstrResp instructions response)
      userPrompt s).1 with e | mem
  · exact ⟨["Memory generation failed for " ++ agentRole ++ ": " ++ e],
      by simp [hg, pushLog, generateAgentMemory_log]⟩
  · exact ⟨[], by simp [hg, generateAgentMemory_log]⟩

theorem memStepMemory_ctx (env : ServiceEnv) (role response userPrompt : String) (s : RunState) :
    (memStepMemory env role response userPrompt s).ctx = s.ctx := by
  unfold memStepMemory
  rcases hg : (generateAgentMemory env role (jsonStr response) userPrompt s).1 with e | mem <;>
    simp [hg, pushLog, generateAgentMemory_ctx]

/-- Anatomy of `executeSingleAgent`: the results map is either unchanged (a
failed call) or extended at exactly the key `agentRole ++ "_result"`. -/
theorem executeSingleAgent_results (env : ServiceEnv) (agentRole instructions userPrompt : String)
    (s : RunState) :
    ((executeSingleAgent env agentRole instructions userPrompt s).2).ctx.results = s.ctx.results ∨
    ∃ v, ((executeSingleAgent env agentRole instructions userPrompt s).2).ctx.results
      = mapSet s.ctx.results (agentRole ++ "_result") v := by
  rcases hc : env.chat s.callIdx (getSystemPromptForAgent agentRole) instructions with msg | response
  · left
    simp [executeSingleAgent, chatCall, createAgentWithRole, pushLog, pushError, hc]
  · right
    refine ⟨response, ?_⟩
    simp [executeSingleAgent, chatCall, createAgentWithRole, pushLog, hc, esaMemory_ctx, esaStore]

/-- Characteristic equation of `executeSingleAgent`, the two branches of the
oracle made explicit. -/
theorem executeSingleAgent_eq (env : ServiceEnv) (agentRole instructions userPrompt : String)
    (s : RunState) :
    executeSingleAgent env agentRole instructions userPrompt s =
      match env.chat s.callIdx (getSystemPromptForAgent agentRole) instructions with
      | Except.error msg =>
        (false, pushLog (pushError
          { pushLog s ("Executing " ++ agentRole ++ " agent...") with callIdx := s.callIdx + 1 }
          (agentRole ++ " failed: " ++ msg)) ("❌ " ++ (agentRole ++ " failed: " ++ msg)))
      | Except.ok response =>
        (true, pushLog (esaMemory env agentRole instructions userPrompt response (esaStore
          { pushLog s ("Executing " ++ agentRole ++ " agent...") with callIdx := s.callIdx + 1 }
          agentRole response)) (agentRole ++ " completed successfully")) := by
  rcases hc : env.chat s.callIdx (getSystemPromptForAgent agentRole) instructions with msg | response <;>
    simp [executeSingleAgent, chatCall, createAgentWithRole, pushLog, hc]

theorem esaOk_log_tail (env : ServiceEnv) (agentRole instructions userPrompt response : String)
    (s2 : RunState) (base : List String) (entry : String) (hlog : s2.log = base ++ [entry]) :
    ∃ t, (pushLog (esaMemory env agentRole instructions userPrompt response
        (esaStore s2 agentRole response)) (agentRole ++ " completed successfully")).log
      = base ++ entry :: t := by
  obtain ⟨t, ht⟩ := esaMemory_log env agentRole instructions userPrompt response
    (esaStore s2 agentRole response)
  refine ⟨t ++ [agentRole ++ " completed successfully"], ?_⟩
  have h2 : (esaStore s2 agentRole response).log = base ++ [entry] := by simp [esaStore, hlog]
  simp [pushLog, ht, h2]

/-- Anatomy of `executeSingleAgent`: the log grows by the entry announcing
the invocation, followed by entries of that invocation. -/
theorem executeSingleAgent_log (env : ServiceEnv) (agentRole instructions userPrompt : String)
    (s : RunState) :
    ∃ t, ((executeSingleAgent env agentRole instructions userPrompt s).2).log
      = s.log ++ ("Executing " ++ agentRole ++ " agent...") :: t := by
  rw [executeSingleAgent_eq]
  rcases hc : env.chat s.callIdx (getSystemPromptForAgent agentRole) instructions with msg | response
  · refine ⟨["❌ " ++ (agentRole ++ " failed: " ++ msg)], ?_⟩
    simp [pushLog, pushError]
  · apply esaOk_log_tail
    simp [pushLog]

end GrokCode

namespace GrokCode

/-- C6: `calculateMemoryRelevance` returns `min(n, 10)` where `n` is the
number of whitespace-separated tokens of the user prompt longer than 3
characters that occur case-insensitively as substrings of the serialized
memory content; consequently appending further matching tokens never
decreases the score, and the score never exceeds 10. -/
theorem c6_relevance_score :
    (∀ memoryContent userPrompt, calculateMemoryRelevance memoryContent userPrompt
        = min (relevantTokenCount userPrompt memoryContent) 10) ∧
    (∀ memoryContent userPrompt extra, calculateMemoryRelevance memoryContent userPrompt
        ≤ calculateMemoryRelevance memoryContent (userPrompt ++ " " ++ extra)) ∧
    (∀ memoryContent userPrompt, calculateMemoryRelevance memoryContent userPrompt ≤ 10) :=
  ⟨calculateMemoryRelevance_spec, calculateMemoryRelevance_mono, calculateMemoryRelevance_le_ten⟩

/-- C5: whenever the pruning agent response cannot be parsed as the
expected JSON structure, `pruneAgentMemories` does not raise and returns
exactly the first 5 entries of the flattened, order-preserving memory list
as `relevantMemories`, the remaining entries as `prunedMemories`, the fixed
fallback `contextSummary` and the fixed single recommendation. -/
theorem c5_prune_parse_fallback :
    ∀ (chat : Nat → String → String → Except String String)
      (parseAnalysis : String → Option PruneAnalysis) (callIdx : Nat)
      (originalUserPrompt : String) (agentMemories : List (String × List AgentMemory))
      (currentPrompt : String) (response : String),
      chat callIdx memoryPruningAgentSystemPrompt
          (pruningPrompt originalUserPrompt currentPrompt (flattenTagged agentMemories))
        = Except.ok response →
      parseAnalysis response = none →
      pruneAgentMemories chat parseAnalysis callIdx originalUserPrompt agentMemories currentPrompt
        = Except.ok
          { relevantMemories := (flattenTagged agentMemories).take 5
            prunedMemories := (flattenTagged agentMemories).drop 5
            contextSummary := "Automatic pruning performed due to parsing error"
            cleanupRecommendations := ["Implement better JSON parsing for memory analysis"] } := by
  intro chat parseAnalysis callIdx orig mems cur response hchat hparse
  simp [pruneAgentMemories, hchat, hparse]

def w5Mem (i : Nat) : AgentMemory :=
  { agentRole := "analysis", memoryType := "codebase-analysis", content := "c" ++ toString i
    relevanceScore := 0, retentionFlags := [] }

def w5Memories : List (String × List AgentMemory) :=
  [("interpreter-agent", [w5Mem 0]), ("analysis-agent", [w5Mem 1, w5Mem 2, w5Mem 3]),
   ("coder-agent", [w5Mem 4, w5Mem 5, w5Mem 6])]

theorem c5_prune_parse_fallback_witness :
    pruneAgentMemories (fun _ _ _ => Except.ok "not json at all") (fun _ => none) 0
        "orig" w5Memories "cur"
      = Except.ok
        { relevantMemories := (flattenTagged w5Memories).take 5
          prunedMemories := (flattenTagged w5Memories).drop 5
          contextSummary := "Automatic pruning performed due to parsing error"
          cleanupRecommendations := ["Implement better JSON parsing for memory analysis"] } :=
  c5_prune_parse_fallback (fun _ _ _ => Except.ok "not json at all") (fun _ => none) 0
    "orig" w5Memories "cur" "not json at all" rfl rfl

/-- Whether the precondition check of `executePipeline` fires for this id. -/
def notFoundOrDisabled (pipelineId : String) : Bool :=
  match findPipeline pipelineId with
  | none => true
  | some pipeline => !pipeline.enabled

/-- C8: `executePipeline` fails (with the not-found error) exactly when no
pipeline is registered under the id or the registered pipeline is disabled;
the failure does not depend on the completion service (second conjunct holds
for every `env`), so it precedes every step execution and context mutation. -/
theorem c8_not_found_precondition :
    ∀ (env : ServiceEnv) (pipelineId userPrompt : String),
      ((executePipeline env pipelineId userPrompt).isOk = false
        ↔ notFoundOrDisabled pipelineId = true) ∧
      (notFoundOrDisabled pipelineId = true →
        executePipeline env pipelineId userPrompt
          = Except.error ("Pipeline " ++ pipelineId ++ " not found or disabled")) := by
  intro env pipelineId userPrompt
  unfold executePipeline notFoundOrDisabled
  cases hf : findPipeline pipelineId with
  | none => simp [Except.isOk, Except.toBool]
  | some pipeline => cases he : pipeline.enabled <;> simp [he, Except.isOk, Except.toBool]

def stubService : ServiceEnv :=
  { chat := fun _ _ _ => Except.ok "x"
    parsePlan := fun _ => none
    parseMemoryContent := fun _ => none }

theorem c8_not_found_precondition_witness :
    executePipeline stubService "no-such-pipeline" "p"
        = Except.error ("Pipeline " ++ "no-such-pipeline" ++ " not found or disabled") ∧
      (executePipeline stubService "analysis-only" "p").isOk = true :=
  ⟨(c8_not_found_precondition stubService "no-such-pipeline" "p").2 (by decide), by decide⟩

end GrokCode

namespace GrokCode

/-- The value stored under `k`, counted as present only when non-empty (the
amended reading of the completion convention forced by JavaScript `||`). -/
def presentNonEmpty (results : List (String × String)) (k : String) : Option String :=
  match mapGet results k with
  | some v => if v = "" then none else some v
  | none => none

/-- The amended completion convention: `final_summary` if present and
non-empty, else `generated_code` if present and non-empty, else the
placeholder. -/
def specFinalResult (results : List (String × String)) : String :=
  (presentNonEmpty results "final_summary").getD
    ((presentNonEmpty results "generated_code").getD "Pipeline completed")

theorem jsOrS_presentNonEmpty (results : List (String × String)) (k d : String) :
    jsOrS (mapGet results k) d = (presentNonEmpty results k).getD d := by
  unfold jsOrS presentNonEmpty
  cases mapGet results k with
  | none => rfl
  | some v =>
    by_cases hv : v = "" <;> simp [hv]

def c7StubEnv : ServiceEnv :=
  { chat := fun _ _ _ => Except.ok "analysis complete: no issues found"
    parsePlan := fun _ => none
    parseMemoryContent := fun _ => none }

/-- C7 (amended): for every completed `executePipeline` run, success holds
iff the error list is empty, and `finalResult` is `results["final_summary"]`
if present and non-empty, else `results["generated_code"]` if present and
non-empty, else the placeholder "Pipeline completed" (the amendment adds
"non-empty": JavaScript `||` skips an empty stored string); the
"analysis-only" scenario with the stub service behaves as stated. -/
theorem c7_completion_convention :
    (∀ (env : ServiceEnv) (pipelineId userPrompt : String) (r : PipelineResult),
      executePipeline env pipelineId userPrompt = Except.ok r →
        ((r.success = true ↔ r.context.errors = []) ∧
          r.finalResult = specFinalResult r.context.results)) ∧
    ((executePipeline c7StubEnv "analysis-only" "review this module for complexity").toOption.map
        (fun r => (r.success, r.finalResult, r.context.results))
      = some (true, "Pipeline completed", [("analysis", "analysis complete: no issues found")])) := by
  constructor
  · intro env pipelineId userPrompt r h
    unfold executePipeline at h
    cases hf : findPipeline pipelineId with
    | none => rw [hf] at h; exact absurd h (by simp)
    | some pipeline =>
      rw [hf] at h
      cases he : pipeline.enabled with
      | false => simp [he] at h
      | true =>
        simp only [he, if_true] at h
        obtain rfl : _ = r := Except.ok.inj h
        refine ⟨?_, ?_⟩
        · simp [pipelineCompletion, List.isEmpty_iff]
        · simp [pipelineCompletion, specFinalResult, jsOrS_presentNonEmpty]
  · decide

theorem c7_completion_convention_witness :
    ∃ r, executePipeline stubService "analysis-only" "p" = Except.ok r ∧
      (r.success = true ↔ r.context.errors = []) ∧
      r.finalResult = specFinalResult r.context.results := by
  obtain ⟨r, hr⟩ := exceptOk_of_isOk
    (e := executePipeline stubService "analysis-only" "p") (by decide)
  exact ⟨r, hr, c7_completion_convention.1 stubService "analysis-only" "p" r hr⟩

def c7EmptyEnv : ServiceEnv :=
  { chat := fun _ _ _ => Except.ok ""
    parsePlan := fun _ => none
    parseMemoryContent := fun _ => none }

/-- C7 counterexample to the claim as stated: when every step succeeds with
the empty response, `final_summary` is present (mapped to "") yet
`finalResult` is the placeholder, not the present value. -/
theorem c7_completion_convention_counterexample :
    (executePipeline c7EmptyEnv "code-development" "p").toOption.map
        (fun r => (mapGet r.context.results "final_summary", r.finalResult))
      = some (some "", "Pipeline completed") := by
  decide

end GrokCode

namespace GrokCode

/-- C4 (amended): in `executePipeline`, a failing step whose role is
"supervisor" stops the loop early — the remaining steps are irrelevant to
the run, for any step list.  The `executePipelineWithMemory` loop has no
such early stop; however every registered pipeline carries the "supervisor"
role only in its final position (second conjunct), so no actual run of
either executor ever executes or logs a step scheduled after a failed
supervisor. -/
theorem c4_supervisor_stops_pipeline :
    (∀ (env : ServiceEnv) (total : Nat) (sup : AgentStep) (rest : List AgentStep)
      (i : Nat) (s : RunState),
      sup.role = "supervisor" →
      (∃ msg, env.chat s.callIdx sup.agent.systemPrompt
          (sup.inputMap (setStepCount s (i + 1)).ctx) = Except.error msg) →
      runPipelineSteps env total (sup :: rest) i s
        = runPipelineSteps env total [sup] i s) ∧
    (∀ (pipelineId : String) (pipeline : AgentPipeline),
      findPipeline pipelineId = some pipeline →
      pipeline.steps.dropLast.all (fun st => st.role != "supervisor") = true) := by
  constructor
  · intro env total sup rest i s hrole hmsg
    obtain ⟨msg, hc⟩ := hmsg
    have hc2 : env.chat (pushLog (setStepCount s (i + 1))
          ("Executing step " ++ toString (i + 1) ++ "/" ++ toString total ++ ": " ++ sup.role)).callIdx
        sup.agent.systemPrompt
        (sup.inputMap (pushLog (setStepCount s (i + 1))
          ("Executing step " ++ toString (i + 1) ++ "/" ++ toString total ++ ": " ++ sup.role)).ctx)
        = Except.error msg := by
      simpa [pushLog, setStepCount] using hc
    rw [hrole] at hc2
    simp [runPipelineSteps, chatCall, hc2, hrole]
  · intro pipelineId pipeline h
    unfold findPipeline at h
    rcases ho : pipelineRegistry.find? (fun kv => kv.1 == pipelineId) with _ | kv
    · rw [ho] at h; exact absurd h (by simp)
    · rw [ho] at h
      have hkv : kv ∈ pipelineRegistry := List.mem_of_find?_eq_some ho
      have hpl : kv.2 = pipeline := by simpa using h
      have : kv = pipelineRegistry[0] ∨ kv = pipelineRegistry[1] := by
        simpa [pipelineRegistry] using hkv
      rcases this with h2 | h2 <;> (subst h2; rw [← hpl]; decide)

def c4wSup : AgentStep :=
  { agent := createAgentWithRole "supervisor" "supervise" "Pipeline supervisor..."
    role := "supervisor"
    inputMap := fun _ => "x"
    outputKey := some "final_summary" }

def c4wExtra : AgentStep :=
  { agent := createAgentWithRole "extra" "extra" "p"
    role := "extra"
    inputMap := fun _ => "y"
    outputKey := none }

def c4wEnv : ServiceEnv :=
  { chat := fun _ _ _ => Except.error "boom"
    parsePlan := fun _ => none
    parseMemoryContent := fun _ => none }

theorem c4_supervisor_stops_pipeline_witness :
    runPipelineSteps c4wEnv 2 [c4wSup, c4wExtra] 0 (initRunState "p" 2)
      = runPipelineSteps c4wEnv 2 [c4wSup] 0 (initRunState "p" 2) :=
  c4_supervisor_stops_pipeline.1 c4wEnv 2 c4wSup [c4wExtra] 0 (initRunState "p" 2) rfl
    ⟨"boom", rfl⟩

def c4cEnv : ServiceEnv :=
  { chat := fun n _ _ => if n == 0 then Except.error "boom" else Except.ok "later output"
    parsePlan := fun _ => none
    parseMemoryContent := fun _ => none }

/-- C4 counterexample to the claim as stated: the `executePipelineWithMemory`
loop does not stop after a failed "supervisor" step — on a step list with a
step scheduled after the supervisor, that later step executes and its launch
entry appears in the execution log. -/
theorem c4_supervisor_stops_pipeline_counterexample :
    "Executing step 2/2: extra"
      ∈ (runMemorySteps c4cEnv 2 "p" [c4wSup, c4wExtra] 0 (initRunState "p" 2)).log := by
  decide

end GrokCode

namespace GrokCode

/-- At planning time the results map holds at most the interpreter output
under the key `"interpreter_result"`, so the `"interpretation"` lookup of
phase 2 always yields nothing and the planner interpretation slot is
always the empty string. -/
theorem orchInterpretation_empty (env : ServiceEnv) (userPrompt : String) :
    orchInterpretation env userPrompt = "" := by
  unfold orchInterpretation orchPhase1
  rcases executeSingleAgent_results env "interpreter" (interpreterInstructions userPrompt)
      userPrompt (initRunState userPrompt 10) with h | ⟨v, h⟩
  · rw [h]; rfl
  · rw [h]
    simp [initRunState, mapSet, mapGet, jsOrS]

def c2Env : ServiceEnv :=
  { chat := fun n _ _ => if n == 0 then Except.ok "ROUTE-REQUEST-TO-CODER-7Q4" else Except.ok "x"
    parsePlan := fun _ => none
    parseMemoryContent := fun _ => none }

/-- C2: the message sent to the workflow director is supposed to contain the
interpreter raw output, but the interpreter stored its output under
`"interpreter_result"` while phase 2 reads `"interpretation"`, so the
interpretation slot of the planner message is always empty: with a stub
service answering the interpreter call with a marker text, phase 1 succeeds
and stores the marker, yet the planner user message carries an empty
interpretation and does not contain the marker. -/
theorem c2_planner_message_lacks_interpretation :
    (∀ (env : ServiceEnv) (userPrompt : String), orchInterpretation env userPrompt = "") ∧
    (orchPhase1 c2Env "fix the login crash").1 = true ∧
    mapGet (orchPhase1 c2Env "fix the login crash").2.ctx.results "interpreter_result"
      = some "ROUTE-REQUEST-TO-CODER-7Q4" ∧
    plannerUserMessage "fix the login crash" (orchInterpretation c2Env "fix the login crash")
      = "User Request: \"fix the login crash\"\nInterpretation: \"\"\n\nDetermine the optimal workflow sequence of agents." ∧
    strIncludes
      (plannerUserMessage "fix the login crash" (orchInterpretation c2Env "fix the login crash"))
      "ROUTE-REQUEST-TO-CODER-7Q4" = false :=
  ⟨orchInterpretation_empty, by decide, by decide, by decide, by decide⟩

end GrokCode

namespace GrokCode

/-- Every key of the results map was written by `executeSingleAgent`, i.e.
is of the form `role ++ "_result"`. -/
def resultKeysShaped (m : List (String × String)) : Prop :=
  ∀ kv ∈ m, ∃ ro : String, kv.1 = ro ++ "_result"

theorem ne_result_suffix_final (ro : String) : ro ++ "_result" ≠ "final_summary" := by
  intro h
  have hsuf : "_result".data <:+ "final_summary".data :=
    ⟨ro.data, by rw [← String.data_append, h]⟩
  exact absurd hsuf (by decide)

theorem ne_result_suffix_generated (ro : String) : ro ++ "_result" ≠ "generated_code" := by
  intro h
  have hsuf : "_result".data <:+ "generated_code".data :=
    ⟨ro.data, by rw [← String.data_append, h]⟩
  exact absurd hsuf (by decide)

theorem mapGet_none_of_shaped {m : List (String × String)} (h : resultKeysShaped m)
    {k : String} (hk : ∀ ro : String, ro ++ "_result" ≠ k) : mapGet m k = none := by
  unfold mapGet
  cases hf : m.find? (fun kv => kv.1 == k) with
  | none => rfl
  | some kv =>
    have hmem := List.mem_of_find?_eq_some hf
    have hpred := List.find?_some (p := fun (kv : String × String) => kv.1 == k) hf
    have hpred2 : (kv.1 == k) = true := by simpa using hpred
    obtain ⟨ro, hro⟩ := h kv hmem
    exact absurd (hro ▸ eq_of_beq hpred2) (hk ro)

theorem shaped_mapSet {m : List (String × String)} (h : resultKeysShaped m) (ro v : String) :
    resultKeysShaped (mapSet m (ro ++ "_result") v) := by
  intro kv hkv
  rcases mapSet_mem hkv with h1 | h1
  · exact ⟨ro, h1⟩
  · exact h kv h1

theorem shaped_executeSingleAgent (env : ServiceEnv) (agentRole instructions userPrompt : String)
    (s : RunState) (h : resultKeysShaped s.ctx.results) :
    resultKeysShaped ((executeSingleAgent env agentRole instructions userPrompt s).2).ctx.results := by
  rcases executeSingleAgent_results env agentRole instructions userPrompt s with h2 | ⟨v, h2⟩
  · rw [h2]; exact h
  · rw [h2]; exact shaped_mapSet h agentRole v

theorem shaped_runPlannedSteps (env : ServiceEnv) (userPrompt : String) :
    ∀ (steps : List PlannedStep) (s : RunState), resultKeysShaped s.ctx.results →
      resultKeysShaped ((runPlannedSteps env userPrompt steps s)).ctx.results := by
  intro steps
  induction steps with
  | nil => intro s h; exact h
  | cons step rest ih =>
    intro s h
    have hesa := shaped_executeSingleAgent env step.agent step.instructions userPrompt s h
    simp only [runPlannedSteps]
    split
    · simpa [pushLog] using hesa
    · split
      · split
        · apply ih
          have hretry := shaped_executeSingleAgent env step.agent
            (retryInstructions step.instructions
              (getFeedback (executeSingleAgent env step.agent step.instructions userPrompt s).2 step))
            userPrompt
            (pushLog (executeSingleAgent env step.agent step.instructions userPrompt s).2
              ("🔄 Quality issues detected - sending feedback to " ++ step.agent ++ " for iteration"))
            (by simpa [pushLog] using hesa)
          exact hretry
        · exact ih _ hesa
      · exact ih _ hesa

theorem determineWorkflow_ctx (env : ServiceEnv) (interpretation originalPrompt : String)
    (s : RunState) (plan : WorkflowPlan) (s2 : RunState)
    (h : determineWorkflowFromInterpretation env interpretation originalPrompt s
      = Except.ok (plan, s2)) : s2.ctx = s.ctx := by
  simp only [determineWorkflowFromInterpretation, chatCall, createAgentWithRole] at h
  rcases hc : env.chat s.callIdx workflowDirectorSystemPrompt
      (plannerUserMessage originalPrompt interpretation) with e | response
  · rw [hc] at h; exact absurd h (by simp)
  · rw [hc] at h
    rcases hp : env.parsePlan response with _ | pl <;> simp only [hp] at h <;>
      (obtain ⟨h1, h2⟩ := Prod.mk.inj (Except.ok.inj h); rw [← h2])

end GrokCode

namespace GrokCode

theorem shaped_init (userPrompt : String) (maxSteps : Nat) :
    resultKeysShaped (initRunState userPrompt maxSteps).ctx.results := by
  intro kv hkv
  simp [initRunState] at hkv

/-- C10 (amended): in every returning run of the intelligent orchestrator,
each stored result key has the form `role ++ "_result"`, so the keys
`"final_summary"` and `"generated_code"` are never populated; consequently,
for every run that passes the interpretation phase, `finalResult` is the
fixed placeholder "Workflow completed" (the amendment restricts the
placeholder statement to runs passing interpretation: a failed
interpretation returns its own fixed failure message instead). -/
theorem c10_result_keys_and_placeholder :
    ∀ (env : ServiceEnv) (userPrompt : String) (r : PipelineResult),
      executeIntelligentOrchestration env userPrompt = Except.ok r →
        (resultKeysShaped r.context.results ∧
         mapGet r.context.results "final_summary" = none ∧
         mapGet r.context.results "generated_code" = none ∧
         ((orchPhase1 env userPrompt).1 = true → r.finalResult = "Workflow completed")) := by
  intro env userPrompt r h
  unfold executeIntelligentOrchestration at h
  cases h1 : (orchPhase1 env userPrompt).1 with
  | false =>
    simp only [h1, Bool.false_eq_true, if_false] at h
    obtain rfl := Except.ok.inj h
    have hsh : resultKeysShaped (orchPhase1 env userPrompt).2.ctx.results := by
      unfold orchPhase1
      exact shaped_executeSingleAgent env "interpreter" (interpreterInstructions userPrompt)
        userPrompt (initRunState userPrompt 10) (shaped_init userPrompt 10)
    refine ⟨hsh, mapGet_none_of_shaped hsh ne_result_suffix_final,
      mapGet_none_of_shaped hsh ne_result_suffix_generated, ?_⟩
    intro h2
    exact absurd h2 (by simp)
  | true =>
    simp only [h1, if_true] at h
    cases he : orchExecPhase env userPrompt with
    | error e => rw [he] at h; exact absurd h (by simp)
    | ok s3 =>
      rw [he] at h
      simp only [] at h
      obtain rfl := Except.ok.inj h
      have hs3 : resultKeysShaped s3.ctx.results := by
        unfold orchExecPhase at he
        cases hp : orchPlanning env userPrompt with
        | error e => rw [hp] at he; exact absurd he (by simp)
        | ok pair =>
          rw [hp] at he
          obtain rfl := Except.ok.inj he
          have hctx : pair.2.ctx = (orchPhase1 env userPrompt).2.ctx := by
            unfold orchPlanning at hp
            exact determineWorkflow_ctx env (orchInterpretation env userPrompt) userPrompt
              (orchPhase1 env userPrompt).2 pair.1 pair.2 hp
          have hsh1 : resultKeysShaped (orchPhase1 env userPrompt).2.ctx.results := by
            unfold orchPhase1
            exact shaped_executeSingleAgent env "interpreter" (interpreterInstructions userPrompt)
              userPrompt (initRunState userPrompt 10) (shaped_init userPrompt 10)
          apply shaped_runPlannedSteps
          simpa [pushLog, hctx] using hsh1
      have hsup := shaped_executeSingleAgent env "supervisor"
        (supervisorInstructions userPrompt (orchInterpretation env userPrompt) s3) userPrompt s3 hs3
      refine ⟨hsup, mapGet_none_of_shaped hsup ne_result_suffix_final,
        mapGet_none_of_shaped hsup ne_result_suffix_generated, ?_⟩
      intro _
      simp [jsOrS, mapGet_none_of_shaped hsup ne_result_suffix_final,
        mapGet_none_of_shaped hsup ne_result_suffix_generated]

def c10wEnv : ServiceEnv :=
  { chat := fun n _ _ =>
      match n with
      | 0 => Except.ok "hello"
      | 2 => Except.ok "some unparsable plan"
      | 4 => Except.ok "done"
      | _ => Except.error "memory service down"
    parsePlan := fun _ => none
    parseMemoryContent := fun _ => none }

theorem c10_result_keys_and_placeholder_witness :
    ∃ r, executeIntelligentOrchestration c10wEnv "p" = Except.ok r ∧
      (resultKeysShaped r.context.results ∧
       mapGet r.context.results "final_summary" = none ∧
       mapGet r.context.results "generated_code" = none ∧
       ((orchPhase1 c10wEnv "p").1 = true → r.finalResult = "Workflow completed")) ∧
      r.finalResult = "Workflow completed" := by
  obtain ⟨r, hr⟩ := exceptOk_of_isOk
    (e := executeIntelligentOrchestration c10wEnv "p") (by decide)
  refine ⟨r, hr, c10_result_keys_and_placeholder c10wEnv "p" r hr, ?_⟩
  exact (c10_result_keys_and_placeholder c10wEnv "p" r hr).2.2.2 (by decide)

def c10cEnv : ServiceEnv :=
  { chat := fun _ _ _ => Except.error "service down"
    parsePlan := fun _ => none
    parseMemoryContent := fun _ => none }

/-- C10 counterexample to the claim as stated: when the interpreter call
fails, the run returns the interpretation-failure message, not
"Workflow completed". -/
theorem c10_result_keys_and_placeholder_counterexample :
    (executeIntelligentOrchestration c10cEnv "p").toOption.map (fun r => r.finalResult)
      = some "Interpretation failed - cannot determine next steps" := by
  decide

end GrokCode

namespace GrokCode

def projOr (e : Except String PipelineResult) (f : PipelineResult → Bool) (b : Bool) : Bool :=
  match e with
  | Except.ok rr => f rr
  | Except.error _ => !b

theorem okProj_eq {r : PipelineResult} {e : Except String PipelineResult}
    (h : e = Except.ok r) (f : PipelineResult → Bool) (b : Bool)
    (hf : projOr e f b = b) : f r = b := by
  subst h
  simpa [projOr] using hf

/-- C3: for every run of the intelligent orchestrator that returns a result
and passes the interpretation phase, the supervision step executes (its
launch entry is in the execution log) and the overall success flag is exactly
the success flag of that final supervisor invocation — whatever happened in
the execution phase. -/
theorem c3_success_is_supervisor :
    ∀ (env : ServiceEnv) (userPrompt : String) (r : PipelineResult),
      executeIntelligentOrchestration env userPrompt = Except.ok r →
      (orchPhase1 env userPrompt).1 = true →
      ∃ s3, orchExecPhase env userPrompt = Except.ok s3 ∧
        r.success = (executeSingleAgent env "supervisor"
          (supervisorInstructions userPrompt (orchInterpretation env userPrompt) s3)
          userPrompt s3).1 ∧
        "Executing supervisor agent..." ∈ r.executionLog := by
  intro env userPrompt r h h1
  unfold executeIntelligentOrchestration at h
  simp only [h1, if_true] at h
  cases he : orchExecPhase env userPrompt with
  | error e => rw [he] at h; exact absurd h (by simp)
  | ok s3 =>
    rw [he] at h
    simp only [] at h
    obtain rfl := Except.ok.inj h
    refine ⟨s3, rfl, rfl, ?_⟩
    obtain ⟨t, ht⟩ := executeSingleAgent_log env "supervisor"
      (supervisorInstructions userPrompt (orchInterpretation env userPrompt) s3) userPrompt s3
    simp only [ht]
    simp

theorem c3_success_is_supervisor_witness :
    ∃ r, executeIntelligentOrchestration c10wEnv "p" = Except.ok r ∧
      (∃ s3, orchExecPhase c10wEnv "p" = Except.ok s3 ∧
        r.success = (executeSingleAgent c10wEnv "supervisor"
          (supervisorInstructions "p" (orchInterpretation c10wEnv "p") s3) "p" s3).1 ∧
        "Executing supervisor agent..." ∈ r.executionLog) ∧
      r.success = true ∧ ¬ r.context.errors = [] := by
  obtain ⟨r, hr⟩ := exceptOk_of_isOk
    (e := executeIntelligentOrchestration c10wEnv "p") (by decide)
  refine ⟨r, hr, c3_success_is_supervisor c10wEnv "p" r hr (by decide), ?_, ?_⟩
  · exact okProj_eq hr (fun rr => rr.success) true (by decide)
  · have h2 : r.context.errors.isEmpty = false :=
      okProj_eq hr (fun rr => rr.context.errors.isEmpty) false (by decide)
    intro hnil
    rw [hnil] at h2
    simp at h2

end GrokCode

namespace GrokCode

/-- C9 (amended): in the execution phase, a planned step declaring
`iterativeFeedback` whose stored feedback output triggers the quality check
is re-invoked exactly once with the prior instructions plus the feedback
appended, after which the loop moves on to the remaining steps without
examining the retry (first conjunct); no retry occurs when the trigger
condition fails (second conjunct); and — the amendment — a failed required
step stops the workflow before the feedback check, so no retry occurs then
either (third conjunct). -/
theorem c9_one_shot_feedback_retry :
    (∀ (env : ServiceEnv) (userPrompt : String) (step : PlannedStep) (rest : List PlannedStep)
      (s : RunState),
      (!(executeSingleAgent env step.agent step.instructions userPrompt s).1 && step.required)
          = false →
      (step.iterativeFeedback
          && hasFeedback (executeSingleAgent env step.agent step.instructions userPrompt s).2 step)
          = true →
      qualityTriggered
          (getFeedback (executeSingleAgent env step.agent step.instructions userPrompt s).2 step)
          = true →
      runPlannedSteps env userPrompt (step :: rest) s
        = runPlannedSteps env userPrompt rest
            ((executeSingleAgent env step.agent
              (retryInstructions step.instructions
                (getFeedback (executeSingleAgent env step.agent step.instructions userPrompt s).2
                  step))
              userPrompt
              (pushLog (executeSingleAgent env step.agent step.instructions userPrompt s).2
                ("🔄 Quality issues detected - sending feedback to " ++ step.agent ++
                  " for iteration"))).2)) ∧
    (∀ (env : ServiceEnv) (userPrompt : String) (step : PlannedStep) (rest : List PlannedStep)
      (s : RunState),
      (!(executeSingleAgent env step.agent step.instructions userPrompt s).1 && step.required)
          = false →
      (step.iterativeFeedback
          && hasFeedback (executeSingleAgent env step.agent step.instructions userPrompt s).2 step
          && qualityTriggered
            (getFeedback (executeSingleAgent env step.agent step.instructions userPrompt s).2 step))
          = false →
      runPlannedSteps env userPrompt (step :: rest) s
        = runPlannedSteps env userPrompt rest
            (executeSingleAgent env step.agent step.instructions userPrompt s).2) ∧
    (∀ (env : ServiceEnv) (userPrompt : String) (step : PlannedStep) (rest : List PlannedStep)
      (s : RunState),
      (!(executeSingleAgent env step.agent step.instructions userPrompt s).1 && step.required)
          = true →
      runPlannedSteps env userPrompt (step :: rest) s
        = pushLog (executeSingleAgent env step.agent step.instructions userPrompt s).2
            ("❌ Required step \x27" ++ step.agent ++ "\x27 failed - stopping workflow")) := by
  refine ⟨?_, ?_, ?_⟩
  · intro env userPrompt step rest s h1 h2 h3
    simp only [runPlannedSteps, h1, h2, h3]
    simp
  · intro env userPrompt step rest s h1 h2
    by_cases hob : (step.iterativeFeedback
        && hasFeedback (executeSingleAgent env step.agent step.instructions userPrompt s).2 step)
        = true
    · have h3 : qualityTriggered
          (getFeedback (executeSingleAgent env step.agent step.instructions userPrompt s).2 step)
          = false := by
        rcases Bool.eq_false_or_eq_true (qualityTriggered
          (getFeedback (executeSingleAgent env step.agent step.instructions userPrompt s).2 step))
          with h | h
        · rw [hob, h] at h2; simp at h2
        · exact h
      simp only [runPlannedSteps, h1, hob, h3]
      simp
    · have hob2 : (step.iterativeFeedback
          && hasFeedback (executeSingleAgent env step.agent step.instructions userPrompt s).2 step)
          = false := by simpa using hob
      simp only [runPlannedSteps, h1, hob2]
      simp
  · intro env userPrompt step rest s h1
    simp only [runPlannedSteps, h1]
    simp

def w9State : RunState :=
  { ctx := { userPrompt := "p", results := [("interpreter_result", "there are issues here")]
             errors := [], stepCount := 1, maxSteps := 10 }
    log := []
    agentMemories := []
    callIdx := 0 }

def w9Step : PlannedStep :=
  { agent := "coder", instructions := "do it", required := true
    iterativeFeedback := true, feedbackOutput := some "interpreter_result" }

def w9Env : ServiceEnv :=
  { chat := fun _ _ _ => Except.ok "done"
    parsePlan := fun _ => none
    parseMemoryContent := fun _ => none }

theorem c9_one_shot_feedback_retry_witness :
    runPlannedSteps w9Env "p" [w9Step] w9State
      = runPlannedSteps w9Env "p" []
          ((executeSingleAgent w9Env w9Step.agent
            (retryInstructions w9Step.instructions
              (getFeedback (executeSingleAgent w9Env w9Step.agent w9Step.instructions "p"
                w9State).2 w9Step))
            "p"
            (pushLog (executeSingleAgent w9Env w9Step.agent w9Step.instructions "p" w9State).2
              ("🔄 Quality issues detected - sending feedback to " ++ w9Step.agent ++
                " for iteration"))).2) :=
  c9_one_shot_feedback_retry.1 w9Env "p" w9Step [] w9State (by decide) (by decide) (by decide)

def c9cEnv : ServiceEnv :=
  { chat := fun n _ _ =>
      match n with
      | 0 => Except.ok "error in the requirements"
      | 2 => Except.ok "plan text"
      | 4 => Except.ok "done"
      | _ => Except.error "service down"
    parsePlan := fun _ => some { steps :=
      [ { agent := "coder", instructions := "do it", required := true
          iterativeFeedback := true, feedbackOutput := some "interpreter_result" } ] }
    parseMemoryContent := fun _ => none }

/-- C9 counterexample to the claim as stated: a planned step declaring
`iterativeFeedback`, whose stored feedback output ("error in the
requirements", under its `feedbackOutput` key) contains the trigger
substring "error", is nevertheless not re-invoked, because the step is
required and its own call failed, which stops the workflow before the
feedback check — the log shows a single "coder" launch where the claim
demands a re-invocation. -/
theorem c9_one_shot_feedback_retry_counterexample :
    ((executeIntelligentOrchestration c9cEnv "p").toOption.map
        (fun r => (r.executionLog.count "Executing coder agent...",
                   mapGet r.context.results "interpreter_result"))
      = some (1, some "error in the requirements")) ∧
    qualityTriggered "error in the requirements" = true :=
  ⟨by decide, by decide⟩

end GrokCode

namespace GrokCode

@[simp] theorem pushLog_ctx (s : RunState) (e : String) : (pushLog s e).ctx = s.ctx := rfl

@[simp] theorem pushError_ctx_stepCount (s : RunState) (m : String) :
    (pushError s m).ctx.stepCount = s.ctx.stepCount := rfl

@[simp] theorem pushError_ctx_maxSteps (s : RunState) (m : String) :
    (pushError s m).ctx.maxSteps = s.ctx.maxSteps := rfl

@[simp] theorem setStepCount_ctx_stepCount (s : RunState) (i : Nat) :
    (setStepCount s i).ctx.stepCount = i := rfl

@[simp] theorem setStepCount_ctx_maxSteps (s : RunState) (i : Nat) :
    (setStepCount s i).ctx.maxSteps = s.ctx.maxSteps := rfl

@[simp] theorem setResult_ctx_stepCount (s : RunState) (k v : String) :
    (setResult s k v).ctx.stepCount = s.ctx.stepCount := rfl

@[simp] theorem setResult_ctx_maxSteps (s : RunState) (k v : String) :
    (setResult s k v).ctx.maxSteps = s.ctx.maxSteps := rfl

/-- The per-state invariant of claim C1. -/
def stepBound (total : Nat) (s : RunState) : Prop :=
  s.ctx.stepCount ≤ total ∧ s.ctx.maxSteps = total

theorem runPipelineSteps_invariant (env : ServiceEnv) (total : Nat) :
    ∀ (steps : List AgentStep) (i : Nat) (s : RunState),
      s.ctx.maxSteps = total → s.ctx.stepCount ≤ total → i + steps.length ≤ total →
      stepBound total (runPipelineSteps env total steps i s) := by
  intro steps
  induction steps with
  | nil => intro i s h1 h2 h3; exact ⟨h2, h1⟩
  | cons step rest ih =>
    intro i s h1 h2 h3
    simp only [List.length_cons] at h3
    simp only [runPipelineSteps, chatCall]
    split
    · split
      · apply ih
        · simp [h1]
        · simp
          omega
        · omega
      · apply ih
        · simp [h1]
        · simp
          omega
        · omega
    · split
      · constructor
        · simp
          omega
        · simp [h1]
      · apply ih
        · simp [h1]
        · simp
          omega
        · omega

end GrokCode

namespace GrokCode

theorem runMemorySteps_invariant (env : ServiceEnv) (total : Nat) (userPrompt : String) :
    ∀ (steps : List AgentStep) (i : Nat) (s : RunState),
      s.ctx.maxSteps = total → s.ctx.stepCount ≤ total → i + steps.length ≤ total →
      stepBound total (runMemorySteps env total userPrompt steps i s) := by
  intro steps
  induction steps with
  | nil => intro i s h1 h2 h3; exact ⟨h2, h1⟩
  | cons step rest ih =>
    intro i s h1 h2 h3
    simp only [List.length_cons] at h3
    simp only [runMemorySteps, chatCall]
    split
    · split
      · apply ih
        · simp [memStepMemory_ctx, h1]
        · simp [memStepMemory_ctx]
          omega
        · omega
      · apply ih
        · simp [h1]
        · simp
          omega
        · omega
    · apply ih
      · simp [h1]
      · simp
        omega
      · omega

end GrokCode

namespace GrokCode

/-- C1 (amended): throughout every run of `executePipeline` and
`executePipelineWithMemory`, `stepCount` never exceeds `maxSteps`, and
`maxSteps` is the number of pipeline steps (first two conjuncts for
the returned context, last two as an invariant over every loop state, so
the bound holds at every point during the run).  The amendment drops
`executeIntelligentOrchestration`, which sets `maxSteps = 10` but does not
bound `stepCount` by it (see the counterexample). -/
theorem c1_stepCount_le_maxSteps :
    (∀ (env : ServiceEnv) (pipelineId userPrompt : String) (r : PipelineResult),
      executePipeline env pipelineId userPrompt = Except.ok r →
        r.context.stepCount ≤ r.context.maxSteps ∧
        ∃ pipeline, findPipeline pipelineId = some pipeline ∧
          r.context.maxSteps = pipeline.steps.length) ∧
    (∀ (env : ServiceEnv) (pipelineId userPrompt : String) (r : PipelineResult),
      executePipelineWithMemory env pipelineId userPrompt = Except.ok r →
        r.context.stepCount ≤ r.context.maxSteps ∧
        ∃ pipeline, findPipeline pipelineId = some pipeline ∧
          r.context.maxSteps = pipeline.steps.length) ∧
    (∀ (env : ServiceEnv) (total : Nat) (steps : List AgentStep) (i : Nat) (s : RunState),
      s.ctx.maxSteps = total → s.ctx.stepCount ≤ total → i + steps.length ≤ total →
      stepBound total (runPipelineSteps env total steps i s)) ∧
    (∀ (env : ServiceEnv) (total : Nat) (userPrompt : String) (steps : List AgentStep)
      (i : Nat) (s : RunState),
      s.ctx.maxSteps = total → s.ctx.stepCount ≤ total → i + steps.length ≤ total →
      stepBound total (runMemorySteps env total userPrompt steps i s)) := by
  refine ⟨?_, ?_, runPipelineSteps_invariant, runMemorySteps_invariant⟩
  · intro env pipelineId userPrompt r h
    unfold executePipeline at h
    cases hf : findPipeline pipelineId with
    | none => rw [hf] at h; exact absurd h (by simp)
    | some pipeline =>
      rw [hf] at h
      cases he : pipeline.enabled with
      | false => simp [he] at h
      | true =>
        simp only [he, if_true] at h
        obtain rfl := Except.ok.inj h
        have hinv := runPipelineSteps_invariant env pipeline.steps.length pipeline.steps 0
          (initRunState userPrompt pipeline.steps.length) rfl (Nat.zero_le _) (by simp)
        obtain ⟨hle, heq⟩ := hinv
        constructor
        · simp only [pipelineCompletion]
          omega
        · exact ⟨pipeline, rfl, by simp only [pipelineCompletion]; exact heq⟩
  · intro env pipelineId userPrompt r h
    unfold executePipelineWithMemory at h
    cases hf : findPipeline pipelineId with
    | none => rw [hf] at h; exact absurd h (by simp)
    | some pipeline =>
      rw [hf] at h
      cases he : pipeline.enabled with
      | false => simp [he] at h
      | true =>
        simp only [he, if_true] at h
        obtain rfl := Except.ok.inj h
        have hinv := runMemorySteps_invariant env pipeline.steps.length userPrompt pipeline.steps 0
          (initRunState userPrompt pipeline.steps.length) rfl (Nat.zero_le _) (by simp)
        obtain ⟨hle, heq⟩ := hinv
        constructor
        · simp only [pipelineCompletion]
          omega
        · exact ⟨pipeline, rfl, by simp only [pipelineCompletion]; exact heq⟩

theorem c1_stepCount_le_maxSteps_witness :
    (∃ r, executePipeline stubService "analysis-only" "w" = Except.ok r ∧
      r.context.stepCount ≤ r.context.maxSteps) ∧
    (∃ r, executePipelineWithMemory stubService "analysis-only" "w" = Except.ok r ∧
      r.context.stepCount ≤ r.context.maxSteps) ∧
    stepBound 1 (runPipelineSteps stubService 1 createAnalysisSteps 0 (initRunState "w" 1)) ∧
    stepBound 1 (runMemorySteps stubService 1 "w" createAnalysisSteps 0 (initRunState "w" 1)) := by
  refine ⟨?_, ?_, ?_, ?_⟩
  · obtain ⟨r, hr⟩ := exceptOk_of_isOk
      (e := executePipeline stubService "analysis-only" "w") (by decide)
    exact ⟨r, hr, (c1_stepCount_le_maxSteps.1 stubService "analysis-only" "w" r hr).1⟩
  · obtain ⟨r, hr⟩ := exceptOk_of_isOk
      (e := executePipelineWithMemory stubService "analysis-only" "w") (by decide)
    exact ⟨r, hr, (c1_stepCount_le_maxSteps.2.1 stubService "analysis-only" "w" r hr).1⟩
  · exact c1_stepCount_le_maxSteps.2.2.1 stubService 1 createAnalysisSteps 0
      (initRunState "w" 1) rfl (by decide) (by decide)
  · exact c1_stepCount_le_maxSteps.2.2.2 stubService 1 "w" createAnalysisSteps 0
      (initRunState "w" 1) rfl (by decide) (by decide)

def c1cEnv : ServiceEnv :=
  { chat := fun _ _ _ => Except.ok "x"
    parsePlan := fun _ => some { steps := (List.range 10).map (fun i =>
      { agent := "a" ++ toString i, instructions := "s", required := false
        iterativeFeedback := false, feedbackOutput := none }) }
    parseMemoryContent := fun _ => none }

/-- C1 counterexample to the claim as stated: an intelligent-orchestration
run whose planner emits ten steps performs twelve successful agent
invocations (interpreter, ten planned steps, supervisor), driving
`stepCount` to 12 while `maxSteps` is 10. -/
theorem c1_stepCount_le_maxSteps_counterexample :
    (executeIntelligentOrchestration c1cEnv "p").toOption.map
        (fun r => (r.context.stepCount, r.context.maxSteps))
      = some (12, 10) := by
  decide

end GrokCode
